import Mathlib

/-!
Verification development for the automaton wake-cycle scheduler.

The definitions below are a shallow embedding of the TypeScript sources:
`src/survival/economics.ts` (survival economics engine) and `src/agent/loop.ts`
(wake-cycle controller, admission guard, Anthropic protocol translation).
JavaScript floating-point numbers are modelled as exact rationals, JS `Infinity`
as `Option.none` where it occurs, and maps/sets as association lists.
-/

/-- Survival tier enumeration from `src/types.ts`, ordered
`normal > low_compute > critical > dead`. -/
inductive SurvivalTier where
  | normal
  | low_compute
  | critical
  | dead
deriving DecidableEq, Repr

/-- Safety rank of a tier: larger means safer. -/
def tierRank : SurvivalTier → ℕ
  | .dead => 0
  | .critical => 1
  | .low_compute => 2
  | .normal => 3

structure RunwayTiers where
  normal : ℚ
  low_compute : ℚ
  critical : ℚ

/-- Modelled from the spec: the `RUNWAY_TIERS` constant lives in `src/types.ts`,
which is not among the provided sources. The spec fixes the boundaries as
`normal>72h, low_compute>24h, critical>4h`. -/
def RUNWAY_TIERS : RunwayTiers :=
  { normal := 72, low_compute := 24, critical := 4 }

/-- Model of the `AutomatonDatabase` counters read by the economics engine.
`none` models a missing key (the source reads `Number(db.getKV(k) || "0")`).
`uptimeHours` abstracts `getUptimeHours`, which derives hours from the wall
clock: `0` when `start_time` is unset, otherwise at least `0.001`. -/
structure AutomatonDatabase where
  totalSpentCentsKV : Option ℚ
  totalEarnedCentsKV : Option ℚ
  childTributeTotalCentsKV : Option ℚ
  turnCount : ℕ
  uptimeHours : ℚ

/-- The only configuration field the economics engine reads. -/
structure AutomatonConfig where
  budgetCents : ℚ

def getUptimeHours (db : AutomatonDatabase) : ℚ := db.uptimeHours

def getTotalSpent (db : AutomatonDatabase) : ℚ := db.totalSpentCentsKV.getD 0

def getTotalEarned (db : AutomatonDatabase) : ℚ := db.totalEarnedCentsKV.getD 0

def getChildTributeTotal (db : AutomatonDatabase) : ℚ := db.childTributeTotalCentsKV.getD 0

def calculateBurnRate (db : AutomatonDatabase) : ℚ :=
  if getUptimeHours db ≤ 0 then 0 else getTotalSpent db / getUptimeHours db

def calculateEarnRate (db : AutomatonDatabase) : ℚ :=
  if getUptimeHours db ≤ 0 then 0 else getTotalEarned db / getUptimeHours db

/-- `calculateRunway`; `none` models the JS `Infinity` returned when `burnRate <= 0`. -/
def calculateRunway (balanceCents burnRate : ℚ) : Option ℚ :=
  if burnRate ≤ 0 then none else some (balanceCents / burnRate)

/-- `getRunwayTier` from `src/survival/economics.ts` lines 56-61. -/
def getRunwayTier (runwayHours : ℚ) : SurvivalTier :=
  if runwayHours > RUNWAY_TIERS.normal then .normal
  else if runwayHours > RUNWAY_TIERS.low_compute then .low_compute
  else if runwayHours > RUNWAY_TIERS.critical then .critical
  else .dead

/-- `EconomicsSnapshot`; the presentational `timestamp` string is omitted. -/
structure EconomicsSnapshot where
  budgetCents : ℚ
  totalSpentCents : ℚ
  totalEarnedCents : ℚ
  balanceCents : ℚ
  burnRatePerHour : ℚ
  earnRatePerHour : ℚ
  earnBurnRatio : ℚ
  runwayHours : ℚ
  costPerTurn : ℚ
  turnsTotal : ℕ
  uptimeHours : ℚ
  childTributeTotal : ℚ

/-- `getEconomicsSnapshot` from `src/survival/economics.ts` lines 66-96. -/
def getEconomicsSnapshot (db : AutomatonDatabase) (config : AutomatonConfig) :
    EconomicsSnapshot :=
  let burnRate := calculateBurnRate db
  let earnRate := calculateEarnRate db
  let totalSpent := getTotalSpent db
  let totalEarned := getTotalEarned db
  let balanceCents := config.budgetCents - totalSpent + totalEarned
  let runwayHours := calculateRunway (max balanceCents 0) burnRate
  let turnCount := db.turnCount
  { budgetCents := config.budgetCents
    totalSpentCents := totalSpent
    totalEarnedCents := totalEarned
    balanceCents := max balanceCents 0
    burnRatePerHour := burnRate
    earnRatePerHour := earnRate
    earnBurnRatio := if burnRate > 0 then earnRate / burnRate else 0
    runwayHours := match runwayHours with | none => 99999 | some r => r
    costPerTurn := if turnCount > 0 then totalSpent / (turnCount : ℚ) else 0
    turnsTotal := turnCount
    uptimeHours := getUptimeHours db
    childTributeTotal := getChildTributeTotal db }

/-- `SpawnGate`; the presentational `reason` string is omitted. -/
structure SpawnGate where
  canSpawn : Bool
  balanceCents : ℚ
  ownMonthlyCost : ℚ
  childMonthlyCost : ℚ
  spawnThreshold : ℚ
  deficit : ℚ

def HOURS_PER_MONTH : ℚ := 720

/-- `checkSpawnGate` from `src/survival/economics.ts` lines 104-141. -/
def checkSpawnGate (db : AutomatonDatabase) (config : AutomatonConfig)
    (numChildren : ℚ) : SpawnGate :=
  let burnRate := calculateBurnRate db
  let totalSpent := getTotalSpent db
  let totalEarned := getTotalEarned db
  let balanceCents := max (config.budgetCents - totalSpent + totalEarned) 0
  let ownMonthlyCost := burnRate * HOURS_PER_MONTH
  let childMonthlyCost := ownMonthlyCost * (0.8 : ℚ)
  let spawnThreshold := ownMonthlyCost + numChildren * childMonthlyCost
  let deficit := max (spawnThreshold - balanceCents) 0
  if balanceCents < spawnThreshold then
    { canSpawn := false, balanceCents, ownMonthlyCost, childMonthlyCost,
      spawnThreshold, deficit }
  else
    { canSpawn := true, balanceCents, ownMonthlyCost, childMonthlyCost,
      spawnThreshold, deficit := 0 }

/-- Scenario database from the spec: 500 cents spent over 5 uptime hours, so the
burn rate is 100 cents/hour. -/
def scenarioDb : AutomatonDatabase :=
  { totalSpentCentsKV := some 500, totalEarnedCentsKV := some 0,
    childTributeTotalCentsKV := some 0, turnCount := 5, uptimeHours := 5 }

def scenarioConfig : AutomatonConfig := { budgetCents := 2000 }

/-- A database with no recorded uptime: the burn rate degenerates to 0. -/
def zeroUptimeDb : AutomatonDatabase :=
  { totalSpentCentsKV := none, totalEarnedCentsKV := none,
    childTributeTotalCentsKV := none, turnCount := 0, uptimeHours := 0 }

/-- JSON values, modelling the JS values handled by `JSON.parse` and
`JSON.stringify` in the inference gateway. Numbers are restricted to integers:
exact modelling of JS floating-point printing is out of scope. -/
inductive Json where
  | null : Json
  | bool : Bool → Json
  | num : Int → Json
  | str : String → Json
  | arr : List Json → Json
  | obj : List (String × Json) → Json
deriving Repr, Inhabited

/-- Decimal digit character for `d < 10`. -/
def digitChar : ℕ → Char
  | 0 => '0'
  | 1 => '1'
  | 2 => '2'
  | 3 => '3'
  | 4 => '4'
  | 5 => '5'
  | 6 => '6'
  | 7 => '7'
  | 8 => '8'
  | _ => '9'

/-- Decimal printing of a natural number. -/
def natToChars (n : ℕ) : List Char :=
  if h : n < 10 then [digitChar n]
  else natToChars (n / 10) ++ [digitChar (n % 10)]
decreasing_by exact Nat.div_lt_self (by omega) (by omega)

/-- Decimal printing of an integer, as `JSON.stringify` prints integral numbers. -/
def intToChars : Int → List Char
  | .ofNat n => natToChars n
  | .negSucc m => '-' :: natToChars (m + 1)

/-- JSON escape of one character, as produced by `JSON.stringify`. Control
characters other than the common three are passed through unchanged on both
sides of the model. -/
def escapeJsonChar (c : Char) : List Char :=
  if c = '"' then ['\\', '"']
  else if c = '\\' then ['\\', '\\']
  else if c = '\n' then ['\\', 'n']
  else if c = '\t' then ['\\', 't']
  else if c = '\r' then ['\\', 'r']
  else [c]

def escapeJsonChars (cs : List Char) : List Char :=
  (cs.map escapeJsonChar).join

mutual

/-- `JSON.stringify` (without spacing), producing a character list. -/
def stringifyChars : Json → List Char
  | .null => 'n' :: ['u', 'l', 'l']
  | .bool true => 't' :: ['r', 'u', 'e']
  | .bool false => 'f' :: ['a', 'l', 's', 'e']
  | .num n => intToChars n
  | .str s => '"' :: escapeJsonChars s.toList ++ ['"']
  | .arr [] => ['[', ']']
  | .arr (e :: es) => '[' :: stringifyChars e ++ stringifyElems es ++ [']']
  | .obj [] => ['\x7b', '\x7d']
  | .obj (f :: fs) => '\x7b' :: stringifyField f ++ stringifyFields fs ++ ['\x7d']

def stringifyElems : List Json → List Char
  | [] => []
  | e :: es => ',' :: stringifyChars e ++ stringifyElems es

def stringifyField : String × Json → List Char
  | (k, v) => '"' :: escapeJsonChars k.toList ++ ['"', ':'] ++ stringifyChars v

def stringifyFields : List (String × Json) → List Char
  | [] => []
  | f :: fs => ',' :: stringifyField f ++ stringifyFields fs

end

def stringifyJson (j : Json) : String := String.mk (stringifyChars j)

def isWsChar (c : Char) : Bool :=
  c == ' ' || c == '\n' || c == '\t' || c == '\r'

def skipWs : List Char → List Char
  | [] => []
  | c :: cs => if isWsChar c then skipWs cs else c :: cs

def unescapeJsonChar (c : Char) : Option Char :=
  if c = '"' then some '"'
  else if c = '\\' then some '\\'
  else if c = '/' then some '/'
  else if c = 'n' then some '\n'
  else if c = 't' then some '\t'
  else if c = 'r' then some '\r'
  else none

/-- Parse the body of a JSON string up to and including the closing quote. -/
def parseStringBody : List Char → Option (List Char × List Char)
  | [] => none
  | c :: rest =>
    if c = '"' then some ([], rest)
    else if c = '\\' then
      match rest with
      | [] => none
      | e :: rest' =>
        match unescapeJsonChar e with
        | some u => (parseStringBody rest').map (fun p => (u :: p.1, p.2))
        | none => none
    else (parseStringBody rest).map (fun p => (c :: p.1, p.2))

/-- Longest digit prefix of a character list. -/
def takeDigits : List Char → List Char × List Char
  | [] => ([], [])
  | c :: cs =>
    if c.isDigit then
      let r := takeDigits cs
      (c :: r.1, r.2)
    else ([], c :: cs)

def digitsToNat (ds : List Char) : ℕ :=
  ds.foldl (fun a c => a * 10 + (c.toNat - 48)) 0

/-- Parse a (integral) JSON number. -/
def parseNumber : List Char → Option (Int × List Char)
  | [] => none
  | c :: cs =>
    if c = '-' then
      let p := takeDigits cs
      if p.1.isEmpty then none else some (-(digitsToNat p.1 : Int), p.2)
    else
      let p := takeDigits (c :: cs)
      if p.1.isEmpty then none else some ((digitsToNat p.1 : Int), p.2)

/-- Check and drop a literal character sequence. -/
def dropLit : List Char → List Char → Option (List Char)
  | [], cs => some cs
  | l :: ls, c :: cs => if c = l then dropLit ls cs else none
  | _ :: _, [] => none

mutual

/-- Fuel-bounded recursive-descent JSON value parser. -/
def parseValueF : ℕ → List Char → Option (Json × List Char)
  | 0, _ => none
  | fuel + 1, cs =>
    match skipWs cs with
    | [] => none
    | c :: rest =>
      if c = '"' then
        match parseStringBody rest with
        | some (s, r) => some (.str (String.mk s), r)
        | none => none
      else if c = '[' then
        match skipWs rest with
        | [] => none
        | d :: r2 =>
          if d = ']' then some (.arr [], r2)
          else
            match parseElemsF fuel (d :: r2) with
            | some (es, r') => some (.arr es, r')
            | none => none
      else if c = '\x7b' then
        match skipWs rest with
        | [] => none
        | d :: r2 =>
          if d = '\x7d' then some (.obj [], r2)
          else
            match parseFieldsF fuel (d :: r2) with
            | some (fs, r') => some (.obj fs, r')
            | none => none
      else if c = 'n' then
        match dropLit ['u', 'l', 'l'] rest with
        | some r => some (.null, r)
        | none => none
      else if c = 't' then
        match dropLit ['r', 'u', 'e'] rest with
        | some r => some (.bool true, r)
        | none => none
      else if c = 'f' then
        match dropLit ['a', 'l', 's', 'e'] rest with
        | some r => some (.bool false, r)
        | none => none
      else
        match parseNumber (c :: rest) with
        | some (n, r) => some (.num n, r)
        | none => none

/-- Parse one-or-more comma-separated values up to the closing bracket. -/
def parseElemsF : ℕ → List Char → Option (List Json × List Char)
  | 0, _ => none
  | fuel + 1, cs =>
    match parseValueF fuel cs with
    | some (e, r) =>
      match skipWs r with
      | [] => none
      | d :: r' =>
        if d = ',' then
          match parseElemsF fuel r' with
          | some (es, r'') => some (e :: es, r'')
          | none => none
        else if d = ']' then some ([e], r')
        else none
    | none => none

/-- Parse one-or-more comma-separated object fields up to the closing brace. -/
def parseFieldsF : ℕ → List Char → Option (List (String × Json) × List Char)
  | 0, _ => none
  | fuel + 1, cs =>
    match skipWs cs with
    | [] => none
    | c :: rest =>
      if c = '"' then
        match parseStringBody rest with
        | some (k, r) =>
          match skipWs r with
          | [] => none
          | d :: r' =>
            if d = ':' then
              match parseValueF fuel r' with
              | some (v, r'') =>
                match skipWs r'' with
                | [] => none
                | d2 :: r3 =>
                  if d2 = ',' then
                    match parseFieldsF fuel r3 with
                    | some (fs, r4) => some ((String.mk k, v) :: fs, r4)
                    | none => none
                  else if d2 = '\x7d' then some ([(String.mk k, v)], r3)
                  else none
              | none => none
            else none
        | none => none
      else none

end

/-- Model of `JSON.parse`: a complete JSON value with only surrounding
whitespace allowed. (The model accepts a slight superset of JSON number
syntax and does not implement `\u` escapes.) -/
def parseJson (s : String) : Option Json :=
  match parseValueF (s.toList.length + 1) s.toList with
  | some (j, rest) => if skipWs rest = [] then some j else none
  | none => none

/-- JavaScript truthiness of a JSON value (`false` means truthy). -/
def jsFalsy : Json → Bool
  | .null => true
  | .bool b => !b
  | .num n => n == 0
  | .str s => s == ""
  | .arr _ => false
  | .obj _ => false

mutual

/-- Model of JS `String(x)` on a JSON value (applied to `args.command`). -/
def jsStringOf : Json → String
  | .null => "null"
  | .bool true => "true"
  | .bool false => "false"
  | .num n => String.mk (intToChars n)
  | .str s => s
  | .arr es => String.intercalate "," (jsStringList es)
  | .obj _ => "[object Object]"

def jsStringList : List Json → List String
  | [] => []
  | e :: es => jsStringOf e :: jsStringList es

end

structure ToolCallFunction where
  name : String
  arguments : String
deriving Repr

/-- A normalized backend tool call (`InferenceToolCall` in `src/types.ts`). -/
structure InferenceToolCall where
  id : String
  function : ToolCallFunction
deriving Repr

/-- Provider-agnostic chat message (`ChatMessage` in `src/types.ts`); the
optional `tool_calls` array is modelled with `[]` standing for "absent". -/
structure ChatMessage where
  role : String
  content : String
  name : Option String := none
  tool_calls : List InferenceToolCall := []
  tool_call_id : Option String := none

/-- `parseToolArguments` from `src/agent/loop.ts` lines 1435-1445: a parsed
non-array object passes through, any other parsed value is wrapped under
`value`, and a parse failure wraps the raw string under `_raw`. -/
def parseToolArguments (raw : String) : Json :=
  match parseJson raw with
  | some (.obj fs) => .obj fs
  | some v => .obj [("value", v)]
  | none => .obj [("_raw", .str raw)]

/-- Anthropic wire content block. -/
inductive AnthBlock where
  | text (text : String)
  | toolUse (id : String) (name : String) (input : Json)
  | toolResult (toolUseId : String) (content : String)
deriving Repr

/-- Anthropic message content: a plain string or a block array. -/
inductive AnthContent where
  | str (s : String)
  | blocks (bs : List AnthBlock)
deriving Repr

structure AnthMessage where
  role : String
  content : AnthContent
deriving Repr

/-- Content blocks of a transformed assistant message
(`transformMessagesForAnthropic`, loop.ts lines 1392-1412): a nonempty text
block, one `tool_use` block per tool call, and a single empty text block when
both are absent. -/
def assistantBlocks (msg : ChatMessage) : List AnthBlock :=
  let base := if msg.content ≠ "" then [AnthBlock.text msg.content] else []
  let withTools := base ++ msg.tool_calls.map (fun tc =>
    AnthBlock.toolUse tc.id tc.function.name (parseToolArguments tc.function.arguments))
  if withTools.isEmpty then [AnthBlock.text ""] else withTools

/-- The message-array part of `transformMessagesForAnthropic` (loop.ts lines
1376-1427): system messages are removed, user messages pass through, assistant
messages become block arrays, tool messages become user-role `tool_result`
blocks, and any other role is dropped. -/
def transformAnthMessages : List ChatMessage → List AnthMessage
  | [] => []
  | msg :: rest =>
    if msg.role = "system" then transformAnthMessages rest
    else if msg.role = "user" then
      { role := "user", content := .str msg.content } :: transformAnthMessages rest
    else if msg.role = "assistant" then
      { role := "assistant", content := .blocks (assistantBlocks msg) }
        :: transformAnthMessages rest
    else if msg.role = "tool" then
      { role := "user",
        content := .blocks
          [AnthBlock.toolResult (msg.tool_call_id.getD "unknown_tool_call") msg.content] }
        :: transformAnthMessages rest
    else transformAnthMessages rest

/-- The nonempty contents of the system messages, in order. -/
def collectSystemParts (messages : List ChatMessage) : List String :=
  (messages.filter (fun m => m.role == "system" && m.content != "")).map (fun m => m.content)

/-- `transformMessagesForAnthropic` (loop.ts lines 1372-1433): the extracted
system string (blank-line separated) and the transformed message array. -/
def transformMessagesForAnthropic (messages : List ChatMessage) :
    Option String × List AnthMessage :=
  let parts := collectSystemParts messages
  (if parts.isEmpty then none else some (String.intercalate "\n\n" parts),
    transformAnthMessages messages)

def isToolUseBlock : AnthBlock → Bool
  | .toolUse _ _ _ => true
  | _ => false

/-- `tool.input || {}` (loop.ts line 1336): JS `||` substitutes `{}` for a
falsy input. -/
def anthToolInput (input : Json) : Json :=
  if jsFalsy input then .obj [] else input

/-- The normalized tool call built from one `tool_use` block
(loop.ts lines 1331-1338). -/
def mkNormalizedToolCall (i n : String) (input : Json) : InferenceToolCall :=
  { id := i, function := { name := n, arguments := stringifyJson (anthToolInput input) } }

/-- Normalization of an Anthropic response's `tool_use` blocks into tool calls
(`chatViaAnthropic`, loop.ts lines 1327-1339); `none` models the `undefined`
produced when the response contains no `tool_use` block. -/
def normalizeAnthropicToolCalls (content : List AnthBlock) :
    Option (List InferenceToolCall) :=
  let toolUseBlocks := content.filter isToolUseBlock
  if toolUseBlocks.isEmpty then none
  else some (toolUseBlocks.map (fun b =>
    match b with
    | .toolUse i n input => mkNormalizedToolCall i n input
    | _ => { id := "", function := { name := "", arguments := "" } }))

/-- `normalizeAnthropicFinishReason` (loop.ts lines 1447-1451). -/
def normalizeAnthropicFinishReason (reason : Option String) : String :=
  match reason with
  | none => "stop"
  | some r => if r = "tool_use" then "tool_calls" else r

def MAX_TOOL_CALLS_PER_TURN : ℕ := 10

def MAX_CONSECUTIVE_ERRORS : ℕ := 5

def MAX_TURNS_PER_WAKE : ℕ := 20

/-- Status tools restricted to one execution per wake (loop.ts lines 88-91). -/
def ONCE_PER_WAKE_TOOLS : List String :=
  ["check_economics", "check_credits", "scan_landscape", "heartbeat_ping", "check_health"]

/-- Result of one tool call (`ToolCallResult` in `src/types.ts`). -/
structure ToolCallResult where
  id : String
  name : String
  arguments : Json
  result : String
  error : Option String := none
  durationMs : ℕ
deriving Repr

/-- Abstract tool-execution interface: the concrete `executeTool` is an
external collaborator, modelled as a deterministic oracle. -/
def ExecOracle : Type := String → Json → ToolCallResult

/-- Per-wake admission-guard state (the `calledOnceTools` and
`executedCommands` sets of `runAgentLoop`). -/
structure GuardState where
  calledOnceTools : List String
  executedCommands : List String
deriving Repr

/-- `JSON.parse(tc.function.arguments)` with `args = {}` on failure
(loop.ts lines 314-319). -/
def parsedArgs (raw : String) : Json :=
  match parseJson raw with
  | some j => j
  | none => .obj []

/-- Truthy `args.command` as a string (JS property access plus `String(...)`). -/
def argCommand (args : Json) : Option String :=
  match args with
  | .obj fs =>
    match fs.lookup "command" with
    | some v => if jsFalsy v then none else some (jsStringOf v)
    | none => none
  | _ => none

/-- The synthetic result recorded for a repeated once-per-wake tool
(loop.ts lines 326-332). -/
def mkOnceBlockedResult (tc : InferenceToolCall) (args : Json) : ToolCallResult :=
  { id := tc.id, name := tc.function.name, arguments := args,
    result := "BLOCKED: " ++ tc.function.name ++ " already called this wake cycle. Use a different tool. Productive tools: exec (run shell commands), write_file, read_file. Build something or sleep.",
    durationMs := 0 }

def containsSubstr (s pat : String) : Bool :=
  s.toList.tails.any (fun t => pat.toList.isPrefixOf t)

/-- The synthetic result recorded for a repeated identical exec command
(loop.ts lines 343-349). -/
def mkExecBlockedResult (tc : InferenceToolCall) (args : Json) (cmdKey : String) :
    ToolCallResult :=
  { id := tc.id, name := tc.function.name, arguments := args,
    result := "BLOCKED: You already ran this exact command this wake cycle and it "
      ++ (if containsSubstr cmdKey "curl" then "failed or returned empty"
          else "was already executed")
      ++ ". Try a COMPLETELY DIFFERENT command or tool. Do not retry. Suggestions: write_file to create a service, exec with a different command, or sleep if you have nothing else to do.",
    durationMs := 0 }

/-- The trimmed exec-command dedup key of a requested call (loop.ts lines
339-340): present only for the `exec` tool with a truthy `command` argument. -/
def execCmdKey (tc : InferenceToolCall) : Option String :=
  (if tc.function.name == "exec" then argCommand (parsedArgs tc.function.arguments)
   else none).map String.trim

/-- Guard-state update after a call executes (loop.ts lines 363-371): record
the exec dedup key, and mark a once-per-wake tool as called. -/
def guardAfterExec (g : GuardState) (name : String) (cmdKey? : Option String) :
    GuardState :=
  let g1 := match cmdKey? with
    | some cmdKey => { g with executedCommands := cmdKey :: g.executedCommands }
    | none => g
  if ONCE_PER_WAKE_TOOLS.contains name then
    { g1 with calledOnceTools := name :: g1.calledOnceTools }
  else g1

/-- The tool-call loop of one turn (loop.ts lines 304-384): returns the updated
guard state, the recorded `turn.toolCalls`, and the names of the calls actually
handed to `executeTool`, in order. -/
def processToolCallsGo (oracle : ExecOracle) (callCount : ℕ) (g : GuardState) :
    List InferenceToolCall → GuardState × List ToolCallResult × List String
  | [] => (g, [], [])
  | tc :: rest =>
    if MAX_TOOL_CALLS_PER_TURN ≤ callCount then (g, [], [])
    else
      let name := tc.function.name
      let args := parsedArgs tc.function.arguments
      if ONCE_PER_WAKE_TOOLS.contains name && g.calledOnceTools.contains name then
        let r := processToolCallsGo oracle (callCount + 1) g rest
        (r.1, mkOnceBlockedResult tc args :: r.2.1, r.2.2)
      else if (match execCmdKey tc with
               | some k => g.executedCommands.contains k
               | none => false) then
        let r := processToolCallsGo oracle (callCount + 1) g rest
        (r.1, mkExecBlockedResult tc args ((execCmdKey tc).getD "") :: r.2.1, r.2.2)
      else
        let res := oracle name args
        let r := processToolCallsGo oracle (callCount + 1)
          (guardAfterExec g name (execCmdKey tc)) rest
        (r.1, { res with id := tc.id } :: r.2.1, name :: r.2.2)

def processToolCalls (oracle : ExecOracle) (g : GuardState)
    (calls : List InferenceToolCall) : GuardState × List ToolCallResult × List String :=
  processToolCallsGo oracle 0 g calls

/-- Stuck-loop fingerprint of a single-result turn (loop.ts lines 417-421). -/
def fingerprintOf (tc0 : ToolCallResult) : String :=
  match (if tc0.name == "exec" then argCommand tc0.arguments else none) with
  | some cmd => "exec:" ++ cmd.take 80
  | none => tc0.name

/-- Repetition-counter update after a turn (loop.ts lines 416-431): the new
`(lastToolName, consecutiveSameTool)` pair. The source has branches only for
exactly one and for more than one result; zero results leave both unchanged. -/
def updateRepetition (lastToolName : String) (consecutiveSameTool : ℕ)
    (toolCalls : List ToolCallResult) : String × ℕ :=
  match toolCalls with
  | [tc0] =>
    let fingerprint := fingerprintOf tc0
    if fingerprint = lastToolName then (lastToolName, consecutiveSameTool + 1)
    else (fingerprint, 1)
  | [] => (lastToolName, consecutiveSameTool)
  | _ => ("", 0)

/-- `AgentState` enumeration from `src/types.ts`. -/
inductive AgentState where
  | waking
  | running
  | low_compute
  | critical
  | sleeping
  | dead
deriving DecidableEq, Repr

/-- Main-loop state: the local variables of `runAgentLoop` together with the
persisted agent state and `sleep_until` value (`none` models the cleared
empty-string value). -/
structure LoopState where
  running : Bool
  consecutiveErrors : ℕ
  turnsThisWake : ℕ
  lastToolName : String
  consecutiveSameTool : ℕ
  guard : GuardState
  agentState : AgentState
  sleepUntil : Option Int
deriving Repr

/-- The backend-response fields the loop inspects. -/
structure RespInput where
  toolCalls : List InferenceToolCall
  finishReason : String

/-- One main-loop iteration as seen from outside: either the iteration threw
somewhere in steps 3-9, or it ran with the given clock value (milliseconds),
survival tier and backend response. The tier abstracts the financial-state
refresh and economics snapshot of the iteration. -/
inductive IterInput where
  | exception (now : Int)
  | turn (now : Int) (tier : SurvivalTier) (resp : RespInput)

/-- JS truthiness of the `error` field of a result. -/
def errTruthy (r : ToolCallResult) : Bool :=
  match r.error with
  | some e => e != ""
  | none => false

/-- `turn.toolCalls.find(tc => tc.name === "sleep")` succeeded without error
(loop.ts lines 446-447). -/
def sleepRequested (results : List ToolCallResult) : Bool :=
  match results.find? (fun r => r.name == "sleep") with
  | some r => !errTruthy r
  | none => false

/-- `sleepUntil && new Date(sleepUntil) > new Date()` (loop.ts line 193). -/
def sleepUntilActive (sleepUntil : Option Int) (now : Int) : Bool :=
  match sleepUntil with
  | some t => now < t
  | none => false

/-- Agent state recorded for a live tier (loop.ts lines 242-257). -/
def tierAgentState : SurvivalTier → AgentState
  | .critical => .critical
  | .low_compute => .low_compute
  | _ => .running

/-- One main-loop iteration that reaches the turn body (loop.ts lines 189-484):
sleep-until check, tier check, tool-call processing, turn accounting,
repetition update, then the termination conditions in source order (stuck loop,
sleep tool, turn cap, idle). Returns the state and the turn's recorded results
(`none` when no turn was persisted). -/
def loopIterTurn (oracle : ExecOracle) (s : LoopState) (now : Int)
    (tier : SurvivalTier) (resp : RespInput) : LoopState × Option (List ToolCallResult) :=
  if sleepUntilActive s.sleepUntil now then ({ s with running := false }, none)
  else if tier = SurvivalTier.dead then
    ({ s with agentState := .dead, running := false }, none)
  else
    let sA := { s with agentState := tierAgentState tier }
    let pr := processToolCalls oracle sA.guard resp.toolCalls
    let results := pr.2.1
    let sB := { sA with guard := pr.1, turnsThisWake := sA.turnsThisWake + 1 }
    let rep := updateRepetition sB.lastToolName sB.consecutiveSameTool results
    let sC := { sB with lastToolName := rep.1, consecutiveSameTool := rep.2 }
    if 3 ≤ sC.consecutiveSameTool then
      let sD := { sC with sleepUntil := some (now + 600000) }
      ({ sD with agentState := AgentState.sleeping, running := false }, some results)
    else if sleepRequested results then
      ({ sC with agentState := AgentState.sleeping, running := false }, some results)
    else if MAX_TURNS_PER_WAKE ≤ sC.turnsThisWake then
      let sD := { sC with sleepUntil := some (now + 600000) }
      ({ sD with agentState := AgentState.sleeping, running := false }, some results)
    else if resp.toolCalls.isEmpty && (resp.finishReason == "stop") then
      let sD := { sC with sleepUntil := some (now + 300000), consecutiveErrors := 0 }
      ({ sD with agentState := AgentState.sleeping, running := false }, some results)
    else ({ sC with consecutiveErrors := 0 }, some results)

/-- One main-loop iteration (loop.ts lines 189-504), including the catch
handler: an exception increments the consecutive-error counter and at
`MAX_CONSECUTIVE_ERRORS` forces sleep with a 5-minute cooldown. -/
def loopIter (oracle : ExecOracle) (s : LoopState) :
    IterInput → LoopState × Option (List ToolCallResult)
  | .exception now =>
    let errs := s.consecutiveErrors + 1
    if MAX_CONSECUTIVE_ERRORS ≤ errs then
      let sD := { s with consecutiveErrors := errs, sleepUntil := some (now + 300000) }
      ({ sD with agentState := AgentState.sleeping, running := false }, none)
    else ({ s with consecutiveErrors := errs }, none)
  | .turn now tier resp => loopIterTurn oracle s now tier resp

def runLoop (oracle : ExecOracle) : LoopState → List IterInput → LoopState
  | s, [] => s
  | s, inp :: rest =>
    if s.running then runLoop oracle (loopIter oracle s inp).1 rest else s

/-- Number of persisted turns a run of the loop executes. -/
def countTurns (oracle : ExecOracle) : LoopState → List IterInput → ℕ
  | _, [] => 0
  | s, inp :: rest =>
    if s.running then
      (if (loopIter oracle s inp).2.isSome then 1 else 0)
        + countTurns oracle (loopIter oracle s inp).1 rest
    else 0

/-- The fixed bootstrap script (loop.ts lines 136-140). -/
def bootstrapSteps : List (String × Json) :=
  [("check_economics", .obj []),
   ("exec", .obj [("command", .str "ls -la ~/ && uname -a && whoami && pwd")]),
   ("exec", .obj [("command", .str "which node && node --version && which git && git --version 2>/dev/null; which python3 && python3 --version 2>/dev/null; which curl && curl --version 2>/dev/null | head -1")])]

/-- One bootstrap step (loop.ts lines 142-177): `ok` records whether
`executeTool` returned without throwing; a completed step marks once-per-wake
tools as called and persists a synthetic turn, incrementing `turnsThisWake`. -/
def runBootstrapStep (s : LoopState) (step : String × Json) (ok : Bool) : LoopState :=
  if ok then
    { s with
      guard := { s.guard with
        calledOnceTools :=
          if ONCE_PER_WAKE_TOOLS.contains step.1 then step.1 :: s.guard.calledOnceTools
          else s.guard.calledOnceTools },
      turnsThisWake := s.turnsThisWake + 1 }
  else s

def runBootstrap (okFlags : List Bool) (s : LoopState) : LoopState :=
  (bootstrapSteps.zip okFlags).foldl (fun acc p => runBootstrapStep acc p.1 p.2) s

/-- Loop state right before the bootstrap phase. -/
def initialLoopState : LoopState :=
  { running := true, consecutiveErrors := 0, turnsThisWake := 0, lastToolName := "",
    consecutiveSameTool := 0,
    guard := { calledOnceTools := [], executedCommands := [] },
    agentState := .running, sleepUntil := none }

/-- Guard behaviour over a session's worth of turns: threads the guard state
and collects every executed tool name. -/
def runGuardTurns (oracle : ExecOracle) (g : GuardState) :
    List (List InferenceToolCall) → GuardState × List String
  | [] => (g, [])
  | calls :: rest =>
    let p := processToolCalls oracle g calls
    let r := runGuardTurns oracle p.1 rest
    (r.1, p.2.2 ++ r.2)

/-- Names of the bootstrap steps whose `executeTool` call completed. -/
def bootstrapExecNames (okFlags : List Bool) : List String :=
  ((bootstrapSteps.zip okFlags).filter (fun p => p.2)).map (fun p => p.1.1)

/-- A concrete everything-succeeds tool oracle, used in concrete evaluations. -/
def okOracle : ExecOracle :=
  fun n args => { id := "raw-id", name := n, arguments := args, result := "ok",
                  durationMs := 5 }

/-- A requested call with empty (unparseable) arguments. -/
def plainCall (i n : String) : InferenceToolCall :=
  { id := i, function := { name := n, arguments := "" } }

/-- Eleven requested calls: ten fillers, then a repeat of an already-executed
once-per-wake tool in slot eleven. -/
def elevenCalls : List InferenceToolCall :=
  [plainCall "c1" "t1", plainCall "c2" "t2", plainCall "c3" "t3",
   plainCall "c4" "t4", plainCall "c5" "t5", plainCall "c6" "t6",
   plainCall "c7" "t7", plainCall "c8" "t8", plainCall "c9" "t9",
   plainCall "c10" "t10", plainCall "c11" "check_economics"]

/-- Guard state in which `check_economics` has already executed this wake. -/
def econDoneGuard : GuardState :=
  { calledOnceTools := ["check_economics"], executedCommands := [] }

/-- The head of the list, if any, is not a decimal digit (the condition under
which a serialized number is correctly delimited from what follows). -/
def headNotDigit (cs : List Char) : Bool :=
  match cs with
  | [] => true
  | c :: _ => !c.isDigit

/-- Concrete assistant tool call whose arguments are the empty JSON object. -/
def tcFixture : InferenceToolCall :=
  { id := "call1", function := { name := "exec", arguments := "\x7b\x7d" } }

/-- Concrete assistant message carrying `tcFixture`. -/
def assistantMsgFixture : ChatMessage :=
  { role := "assistant", content := "running a command", tool_calls := [tcFixture] }

/-- Concrete tool-result message answering `tcFixture`. -/
def toolMsgFixture : ChatMessage :=
  { role := "tool", content := "ok", tool_call_id := some "call1" }

def c7Messages : List ChatMessage := [assistantMsgFixture, toolMsgFixture]

/-- A concrete single-tool-call result, as recorded in a turn. -/
def resFixture : ToolCallResult :=
  { id := "id1", name := "t1", arguments := Json.obj [], result := "ok", durationMs := 5 }

/-- A single requested call to the plain tool `t1`. -/
def respT1 : RespInput :=
  { toolCalls := [plainCall "id1" "t1"], finishReason := "tool_calls" }

/-- A loop state with four consecutive errors already recorded. -/
def errFourState : LoopState :=
  { initialLoopState with consecutiveErrors := 4 }

/-- The state a non-terminating main-loop turn leaves behind (the final `else`
of `loopIterTurn`): tier-refreshed agent state, threaded guard, incremented
turn counter, updated repetition pair, and a reset error counter. -/
def advanceState (s : LoopState) (tier : SurvivalTier) (g : GuardState)
    (nm : String) (k : ℕ) : LoopState :=
  { s with
    agentState := tierAgentState tier, guard := g,
    turnsThisWake := s.turnsThisWake + 1,
    lastToolName := nm, consecutiveSameTool := k,
    consecutiveErrors := 0 }

/-- The state the stuck-loop halt leaves behind: as `advanceState` but
sleeping, stopped, with a 10-minute dormancy deadline and the error counter
untouched. -/
def stuckHaltState (s : LoopState) (tier : SurvivalTier) (g : GuardState)
    (nm : String) (k : ℕ) (now : Int) : LoopState :=
  { s with
    agentState := AgentState.sleeping, running := false, guard := g,
    turnsThisWake := s.turnsThisWake + 1,
    lastToolName := nm, consecutiveSameTool := k,
    sleepUntil := some (now + 600000) }

/-- The state the catch handler leaves behind when the error counter reaches
`MAX_CONSECUTIVE_ERRORS`: sleeping, stopped, with a 5-minute dormancy
deadline. -/
def errorHaltState (s : LoopState) (now : Int) : LoopState :=
  { s with
    consecutiveErrors := s.consecutiveErrors + 1,
    sleepUntil := some (now + 300000),
    agentState := AgentState.sleeping, running := false }

/-- C1 counterexample: at a runway exactly equal to the `normal` boundary (72h)
the code returns `low_compute`, the lower (less safe) of the two adjacent tiers,
not the safer `normal` that the claim's tie rule demands. -/
theorem c1_tie_counterexample :
    getRunwayTier (72 : ℚ) = SurvivalTier.low_compute ∧
      SurvivalTier.low_compute ≠ SurvivalTier.normal := by
  constructor
  · norm_num [getRunwayTier, RUNWAY_TIERS]
  · decide

/-- C1 (amended): `getRunwayTier` returns the highest tier whose lower bound the
runway strictly exceeds (`dead` when it exceeds none), so a runway exactly equal
to a boundary yields the lower (less safe) of the two adjacent tiers; the tier is
a monotone function of the runway. -/
theorem c1_getRunwayTier_characterization (r : ℚ) :
    (getRunwayTier r = SurvivalTier.normal ↔ RUNWAY_TIERS.normal < r) ∧
    (getRunwayTier r = SurvivalTier.low_compute ↔
      RUNWAY_TIERS.low_compute < r ∧ r ≤ RUNWAY_TIERS.normal) ∧
    (getRunwayTier r = SurvivalTier.critical ↔
      RUNWAY_TIERS.critical < r ∧ r ≤ RUNWAY_TIERS.low_compute) ∧
    (getRunwayTier r = SurvivalTier.dead ↔ r ≤ RUNWAY_TIERS.critical) ∧
    (∀ r' : ℚ, r ≤ r' → tierRank (getRunwayTier r) ≤ tierRank (getRunwayTier r')) ∧
    getRunwayTier RUNWAY_TIERS.normal = SurvivalTier.low_compute ∧
    getRunwayTier RUNWAY_TIERS.low_compute = SurvivalTier.critical ∧
    getRunwayTier RUNWAY_TIERS.critical = SurvivalTier.dead := by
  have hbounds : RUNWAY_TIERS.critical < RUNWAY_TIERS.low_compute ∧
      RUNWAY_TIERS.low_compute < RUNWAY_TIERS.normal := by
    norm_num [RUNWAY_TIERS]
  refine ⟨?_, ?_, ?_, ?_, ?_, ?_, ?_, ?_⟩
  · unfold getRunwayTier
    split_ifs with h1 h2 h3 <;> simp_all <;> linarith
  · unfold getRunwayTier
    split_ifs with h1 h2 h3 <;> simp_all <;> constructor <;> linarith
  · unfold getRunwayTier
    split_ifs with h1 h2 h3 <;> simp_all <;> first
      | (constructor <;> linarith)
      | (intro h; linarith)
  · unfold getRunwayTier
    split_ifs with h1 h2 h3 <;> simp_all <;> linarith
  · intro r' hr'
    unfold getRunwayTier
    split_ifs <;> simp [tierRank] <;> linarith
  · unfold getRunwayTier
    split_ifs with h1 h2 <;> simp_all <;> linarith
  · unfold getRunwayTier
    split_ifs with h1 h2 h3 <;> simp_all <;> linarith
  · unfold getRunwayTier
    split_ifs with h1 h2 h3 <;> simp_all <;> linarith

/-- C1 witness: the monotonicity part of the characterization applied at
runways 10 and 100. -/
theorem c1_getRunwayTier_characterization_witness :
    tierRank (getRunwayTier 10) ≤ tierRank (getRunwayTier 100) :=
  (c1_getRunwayTier_characterization 10).2.2.2.2.1 100 (by norm_num)

/-- C3: every snapshot has `balanceCents = max(budget - spent + earned, 0)`;
`runwayHours = balance / burnRate` when the burn rate is positive, and the
sentinel 99999 (strictly above the `normal` boundary) otherwise; on the spec
scenario (budget 2000, spent 500, earned 0, burn rate 100/hr) the snapshot has
balance 1500, runway 15 and tier `critical`. -/
theorem c3_snapshot_balance_runway (db : AutomatonDatabase) (config : AutomatonConfig) :
    ((getEconomicsSnapshot db config).balanceCents
        = max (config.budgetCents - getTotalSpent db + getTotalEarned db) 0) ∧
    (0 < calculateBurnRate db →
      (getEconomicsSnapshot db config).runwayHours
        = (getEconomicsSnapshot db config).balanceCents / calculateBurnRate db) ∧
    (calculateBurnRate db ≤ 0 →
      (getEconomicsSnapshot db config).runwayHours = 99999) ∧
    RUNWAY_TIERS.normal < (99999 : ℚ) ∧
    calculateBurnRate scenarioDb = 100 ∧
    (getEconomicsSnapshot scenarioDb scenarioConfig).balanceCents = 1500 ∧
    (getEconomicsSnapshot scenarioDb scenarioConfig).runwayHours = 15 ∧
    getRunwayTier (getEconomicsSnapshot scenarioDb scenarioConfig).runwayHours
      = SurvivalTier.critical := by
  refine ⟨rfl, ?_, ?_, by norm_num [RUNWAY_TIERS], ?_, ?_, ?_, ?_⟩
  · intro hpos
    simp only [getEconomicsSnapshot, calculateRunway]
    rw [if_neg (by linarith)]
  · intro hle
    simp only [getEconomicsSnapshot, calculateRunway]
    rw [if_pos hle]
  · norm_num [calculateBurnRate, getUptimeHours, getTotalSpent, scenarioDb]
  · norm_num [getEconomicsSnapshot, scenarioDb, scenarioConfig, getTotalSpent,
      getTotalEarned]
  · norm_num [getEconomicsSnapshot, calculateRunway, calculateBurnRate, scenarioDb,
      scenarioConfig, getTotalSpent, getTotalEarned, getUptimeHours]
  · norm_num [getEconomicsSnapshot, calculateRunway, calculateBurnRate, scenarioDb,
      scenarioConfig, getTotalSpent, getTotalEarned, getUptimeHours, getRunwayTier,
      RUNWAY_TIERS]

/-- C3 witness: the burn-rate hypotheses discharged on the scenario database
(positive burn rate) and on the zero-uptime database (zero burn rate). -/
theorem c3_snapshot_balance_runway_witness :
    ((getEconomicsSnapshot scenarioDb scenarioConfig).runwayHours
        = (getEconomicsSnapshot scenarioDb scenarioConfig).balanceCents
            / calculateBurnRate scenarioDb) ∧
    (getEconomicsSnapshot zeroUptimeDb scenarioConfig).runwayHours = 99999 :=
  ⟨(c3_snapshot_balance_runway scenarioDb scenarioConfig).2.1
      (by norm_num [calculateBurnRate, getUptimeHours, getTotalSpent, scenarioDb]),
    (c3_snapshot_balance_runway zeroUptimeDb scenarioConfig).2.2.1
      (by norm_num [calculateBurnRate, getUptimeHours, zeroUptimeDb])⟩

/-- C5: `checkSpawnGate` computes `ownMonthlyCost = burnRate * 720`,
`childMonthlyCost = 0.8 * ownMonthlyCost`,
`spawnThreshold = ownMonthlyCost + numChildren * childMonthlyCost`, reports
`canSpawn` exactly when the clamped balance reaches the threshold, and reports
the shortfall as `deficit` when unaffordable and 0 otherwise. -/
theorem c5_checkSpawnGate (db : AutomatonDatabase) (config : AutomatonConfig)
    (numChildren : ℚ) :
    ((checkSpawnGate db config numChildren).ownMonthlyCost
        = calculateBurnRate db * 720) ∧
    ((checkSpawnGate db config numChildren).childMonthlyCost
        = (0.8 : ℚ) * (checkSpawnGate db config numChildren).ownMonthlyCost) ∧
    ((checkSpawnGate db config numChildren).spawnThreshold
        = (checkSpawnGate db config numChildren).ownMonthlyCost
            + numChildren * (checkSpawnGate db config numChildren).childMonthlyCost) ∧
    ((checkSpawnGate db config numChildren).balanceCents
        = max (config.budgetCents - getTotalSpent db + getTotalEarned db) 0) ∧
    ((checkSpawnGate db config numChildren).canSpawn = true ↔
      (checkSpawnGate db config numChildren).spawnThreshold
        ≤ (checkSpawnGate db config numChildren).balanceCents) ∧
    ((checkSpawnGate db config numChildren).canSpawn = false →
      (checkSpawnGate db config numChildren).deficit
        = (checkSpawnGate db config numChildren).spawnThreshold
            - (checkSpawnGate db config numChildren).balanceCents) ∧
    ((checkSpawnGate db config numChildren).canSpawn = true →
      (checkSpawnGate db config numChildren).deficit = 0) := by
  simp only [checkSpawnGate, HOURS_PER_MONTH]
  split_ifs with h
  · refine ⟨rfl, by ring, rfl, rfl, ?_, ?_, ?_⟩
    · simp only
      constructor
      · intro hc; exact absurd hc (by simp)
      · intro hle; linarith
    · intro _
      simp only
      exact max_eq_left (by linarith)
    · intro hc; exact absurd hc (by simp)
  · refine ⟨rfl, by ring, rfl, rfl, ?_, ?_, ?_⟩
    · simp only
      constructor
      · intro _; linarith
      · intro _; trivial
    · intro hc; exact absurd hc (by simp)
    · intro _; rfl

/-- C5 witness: the deficit clauses discharged on the scenario database (burn
rate 100 makes spawning unaffordable) and the zero-uptime database (zero burn
rate makes the threshold 0, so spawning is affordable with zero deficit). -/
theorem c5_checkSpawnGate_witness :
    ((checkSpawnGate scenarioDb scenarioConfig 1).deficit
        = (checkSpawnGate scenarioDb scenarioConfig 1).spawnThreshold
            - (checkSpawnGate scenarioDb scenarioConfig 1).balanceCents) ∧
    (checkSpawnGate zeroUptimeDb scenarioConfig 1).deficit = 0 :=
  ⟨(c5_checkSpawnGate scenarioDb scenarioConfig 1).2.2.2.2.2.1
      (by norm_num [checkSpawnGate, calculateBurnRate, getUptimeHours, getTotalSpent,
        getTotalEarned, scenarioDb, scenarioConfig, HOURS_PER_MONTH]),
    (c5_checkSpawnGate zeroUptimeDb scenarioConfig 1).2.2.2.2.2.2
      (by norm_num [checkSpawnGate, calculateBurnRate, getUptimeHours, getTotalSpent,
        getTotalEarned, zeroUptimeDb, scenarioConfig, HOURS_PER_MONTH])⟩

theorem digitChar_isDigit (d : ℕ) (h : d < 10) : (digitChar d).isDigit = true := by
  interval_cases d <;> decide

theorem digitChar_val (d : ℕ) (h : d < 10) : (digitChar d).toNat - 48 = d := by
  interval_cases d <;> decide

theorem natToChars_ne_nil (n : ℕ) : natToChars n ≠ [] := by
  unfold natToChars
  split <;> simp

theorem natToChars_all_digits (n : ℕ) : ∀ c ∈ natToChars n, c.isDigit = true := by
  induction n using Nat.strong_induction_on with
  | _ n ih =>
    unfold natToChars
    split
    · next h =>
      intro c hc
      simp only [List.mem_singleton] at hc
      subst hc
      exact digitChar_isDigit n h
    · next h =>
      intro c hc
      rw [List.mem_append] at hc
      rcases hc with hm | hm
      · exact ih (n / 10) (Nat.div_lt_self (by omega) (by omega)) c hm
      · simp only [List.mem_singleton] at hm
        subst hm
        exact digitChar_isDigit (n % 10) (Nat.mod_lt _ (by omega))

theorem digitsToNat_append_digit (ds : List Char) (c : Char) :
    digitsToNat (ds ++ [c]) = digitsToNat ds * 10 + (c.toNat - 48) := by
  unfold digitsToNat
  rw [List.foldl_append]
  rfl

theorem digitsToNat_natToChars (n : ℕ) : digitsToNat (natToChars n) = n := by
  induction n using Nat.strong_induction_on with
  | _ n ih =>
    unfold natToChars
    split
    · next h =>
      have h2 : digitsToNat [digitChar n] = (digitChar n).toNat - 48 := by
        simp [digitsToNat]
      rw [h2, digitChar_val n h]
    · next h =>
      rw [digitsToNat_append_digit, ih (n / 10) (Nat.div_lt_self (by omega) (by omega)),
        digitChar_val (n % 10) (Nat.mod_lt _ (by omega))]
      omega

theorem takeDigits_append (ds rest : List Char)
    (hds : ∀ c ∈ ds, c.isDigit = true) (hrest : headNotDigit rest = true) :
    takeDigits (ds ++ rest) = (ds, rest) := by
  induction ds with
  | nil =>
    simp only [List.nil_append]
    cases rest with
    | nil => rfl
    | cons c cs =>
      have hc : c.isDigit = false := by
        simpa [headNotDigit] using hrest
      simp [takeDigits, hc]
  | cons d ds ih =>
    have hd : d.isDigit = true := hds d (by simp)
    have ih' := ih (fun c hc => hds c (by simp [hc]))
    simp [takeDigits, hd, ih']

theorem parseNumber_intToChars (n : Int) (rest : List Char)
    (hrest : headNotDigit rest = true) :
    parseNumber (intToChars n ++ rest) = some (n, rest) := by
  cases n with
  | ofNat m =>
    obtain ⟨c, cs, hc⟩ : ∃ c cs, natToChars m = c :: cs := by
      cases h : natToChars m with
      | nil => exact absurd h (natToChars_ne_nil m)
      | cons c cs => exact ⟨c, cs, rfl⟩
    have hcd : c.isDigit = true := by
      apply natToChars_all_digits m
      rw [hc]
      simp
    have hcne : ¬(c = '-') := by
      rintro rfl
      exact absurd hcd (by decide)
    have htd : takeDigits (natToChars m ++ rest) = (natToChars m, rest) :=
      takeDigits_append _ _ (natToChars_all_digits m) hrest
    show parseNumber (natToChars m ++ rest) = some (Int.ofNat m, rest)
    rw [hc, List.cons_append]
    simp only [parseNumber]
    rw [if_neg hcne, ← List.cons_append, ← hc, htd]
    have hne : (natToChars m).isEmpty = false := by
      cases h : natToChars m with
      | nil => exact absurd h (natToChars_ne_nil m)
      | cons a l => rfl
    simp [hne, digitsToNat_natToChars]
  | negSucc m =>
    have htd : takeDigits (natToChars (m + 1) ++ rest) = (natToChars (m + 1), rest) :=
      takeDigits_append _ _ (natToChars_all_digits (m + 1)) hrest
    show parseNumber ('-' :: (natToChars (m + 1) ++ rest)) = some (Int.negSucc m, rest)
    simp only [parseNumber, ite_true]
    rw [htd]
    have hne : (natToChars (m + 1)).isEmpty = false := by
      cases h : natToChars (m + 1) with
      | nil => exact absurd h (natToChars_ne_nil (m + 1))
      | cons a l => rfl
    simp [hne, digitsToNat_natToChars, Int.negSucc_eq]

theorem skipWs_cons_not_ws (c : Char) (cs : List Char) (h : isWsChar c = false) :
    skipWs (c :: cs) = c :: cs := by
  simp [skipWs, h]

theorem string_mk_toList (s : String) : String.mk s.toList = s := rfl

theorem parseStringBody_escape (cs rest : List Char) :
    parseStringBody (escapeJsonChars cs ++ '"' :: rest) = some (cs, rest) := by
  induction cs with
  | nil =>
    simp only [escapeJsonChars, List.map_nil, List.join_nil, List.nil_append]
    rw [parseStringBody.eq_def]
    simp
  | cons c cs ih =>
    have hexp : escapeJsonChars (c :: cs) = escapeJsonChar c ++ escapeJsonChars cs := by
      simp [escapeJsonChars]
    rw [hexp, List.append_assoc]
    by_cases h1 : c = '"'
    · subst h1
      rw [show escapeJsonChar '"' = ['\\', '"'] from rfl, List.cons_append,
        List.cons_append, parseStringBody.eq_def]
      simp [unescapeJsonChar, ih]
    · by_cases h2 : c = '\\'
      · subst h2
        rw [show escapeJsonChar '\\' = ['\\', '\\'] from rfl, List.cons_append,
          List.cons_append, parseStringBody.eq_def]
        simp [unescapeJsonChar, ih]
      · by_cases h3 : c = '\n'
        · subst h3
          rw [show escapeJsonChar '\n' = ['\\', 'n'] from rfl, List.cons_append,
            List.cons_append, parseStringBody.eq_def]
          simp [unescapeJsonChar, ih]
        · by_cases h4 : c = '\t'
          · subst h4
            rw [show escapeJsonChar '\t' = ['\\', 't'] from rfl, List.cons_append,
              List.cons_append, parseStringBody.eq_def]
            simp [unescapeJsonChar, ih]
          · by_cases h5 : c = '\r'
            · subst h5
              rw [show escapeJsonChar '\r' = ['\\', 'r'] from rfl, List.cons_append,
                List.cons_append, parseStringBody.eq_def]
              simp [unescapeJsonChar, ih]
            · have hexp2 : escapeJsonChar c = [c] := by
                simp [escapeJsonChar, h1, h2, h3, h4, h5]
              rw [hexp2, List.cons_append, List.nil_append, parseStringBody.eq_def]
              simp [h1, h2, ih]

theorem digit_not_special (c : Char) (h : c.isDigit = true) :
    isWsChar c = false ∧ ¬(c = '"') ∧ ¬(c = '[') ∧ ¬(c = '\x7b') ∧ ¬(c = 'n') ∧
      ¬(c = 't') ∧ ¬(c = 'f') ∧ ¬(c = '-') ∧ ¬(c = ']') ∧ ¬(c = '\x7d') ∧
      ¬(c = ',') ∧ ¬(c = ':') := by
  have hs : ¬(c = ' ') := by rintro rfl; exact absurd h (by decide)
  have hn : ¬(c = '\n') := by rintro rfl; exact absurd h (by decide)
  have ht : ¬(c = '\t') := by rintro rfl; exact absurd h (by decide)
  have hr : ¬(c = '\r') := by rintro rfl; exact absurd h (by decide)
  refine ⟨by simp [isWsChar, hs, hn, ht, hr], ?_, ?_, ?_, ?_, ?_, ?_, ?_, ?_, ?_, ?_, ?_⟩
    <;> (rintro rfl; exact absurd h (by decide))

theorem stringifyChars_length_pos (j : Json) : 1 ≤ (stringifyChars j).length := by
  cases j with
  | null => simp [stringifyChars]
  | bool b => cases b <;> simp [stringifyChars]
  | num n =>
    cases n with
    | ofNat m =>
      have h := natToChars_ne_nil m
      simp only [stringifyChars, intToChars]
      exact List.length_pos.mpr h
    | negSucc m => simp [stringifyChars, intToChars]
  | str s => simp [stringifyChars]
  | arr es => cases es <;> simp [stringifyChars]
  | obj fs => cases fs <;> simp [stringifyChars]

theorem stringifyField_length_pos (f : String × Json) : 1 ≤ (stringifyField f).length := by
  obtain ⟨k, v⟩ := f
  simp [stringifyField]

theorem headNotDigit_elems (es : List Json) (rest : List Char) :
    headNotDigit (stringifyElems es ++ ']' :: rest) = true := by
  cases es with
  | nil => simp [stringifyElems, headNotDigit]
  | cons e es' => simp [stringifyElems, headNotDigit]

theorem headNotDigit_fields (fs : List (String × Json)) (rest : List Char) :
    headNotDigit (stringifyFields fs ++ '\x7d' :: rest) = true := by
  cases fs with
  | nil => simp [stringifyFields, headNotDigit]
  | cons f fs' => simp [stringifyFields, headNotDigit]

theorem stringifyChars_head_facts (j : Json) :
    ∃ c cs, stringifyChars j = c :: cs ∧ isWsChar c = false ∧ ¬(c = ']') := by
  cases j with
  | null =>
    refine ⟨'n', ['u', 'l', 'l'], ?_, by decide, by decide⟩
    simp [stringifyChars]
  | bool b =>
    cases b
    · refine ⟨'f', ['a', 'l', 's', 'e'], ?_, by decide, by decide⟩
      simp [stringifyChars]
    · refine ⟨'t', ['r', 'u', 'e'], ?_, by decide, by decide⟩
      simp [stringifyChars]
  | num n =>
    cases n with
    | ofNat m =>
      obtain ⟨c, cs, hc⟩ : ∃ c cs, natToChars m = c :: cs := by
        cases h : natToChars m with
        | nil => exact absurd h (natToChars_ne_nil m)
        | cons c cs => exact ⟨c, cs, rfl⟩
      have hd : c.isDigit = true := by
        apply natToChars_all_digits m
        rw [hc]
        simp
      obtain ⟨hws, _, _, _, _, _, _, _, hbr, _, _, _⟩ := digit_not_special c hd
      refine ⟨c, cs, ?_, hws, hbr⟩
      simp [stringifyChars, intToChars, hc]
    | negSucc m =>
      refine ⟨'-', natToChars (m + 1), ?_, by decide, by decide⟩
      simp [stringifyChars, intToChars]
  | str s =>
    refine ⟨'"', escapeJsonChars s.toList ++ ['"'], ?_, by decide, by decide⟩
    simp [stringifyChars]
  | arr es =>
    cases es with
    | nil =>
      refine ⟨'[', [']'], ?_, by decide, by decide⟩
      simp [stringifyChars]
    | cons e es' =>
      refine ⟨'[', stringifyChars e ++ stringifyElems es' ++ [']'], ?_, by decide, by decide⟩
      simp [stringifyChars]
  | obj fs =>
    cases fs with
    | nil =>
      refine ⟨'\x7b', ['\x7d'], ?_, by decide, by decide⟩
      simp [stringifyChars]
    | cons f fs' =>
      refine ⟨'\x7b', stringifyField f ++ stringifyFields fs' ++ ['\x7d'], ?_, by decide, by decide⟩
      simp [stringifyChars]


theorem stringifyField_eq (f : String × Json) :
    stringifyField f = '"' :: (escapeJsonChars f.1.toList ++ '"' :: ':' :: stringifyChars f.2) := by
  obtain ⟨kn, v⟩ := f
  simp [stringifyField]

mutual

theorem parseValueF_stringify (j : Json) (rest : List Char) (fuel : ℕ)
    (hf : (stringifyChars j).length < fuel) (hrest : headNotDigit rest = true) :
    parseValueF fuel (stringifyChars j ++ rest) = some (j, rest) := by
  obtain ⟨k, rfl⟩ : ∃ k, fuel = k + 1 := ⟨fuel - 1, by omega⟩
  cases j with
  | null =>
    rw [show stringifyChars Json.null = ['n', 'u', 'l', 'l'] from by simp [stringifyChars]]
    simp [parseValueF, skipWs, isWsChar, dropLit]
  | bool b =>
    cases b
    · rw [show stringifyChars (Json.bool false) = ['f', 'a', 'l', 's', 'e'] from by
        simp [stringifyChars]]
      simp [parseValueF, skipWs, isWsChar, dropLit]
    · rw [show stringifyChars (Json.bool true) = ['t', 'r', 'u', 'e'] from by
        simp [stringifyChars]]
      simp [parseValueF, skipWs, isWsChar, dropLit]
  | num n =>
    rw [show stringifyChars (Json.num n) = intToChars n from by simp [stringifyChars]]
    cases n with
    | ofNat m =>
      obtain ⟨c, cs, hc⟩ : ∃ c cs, natToChars m = c :: cs := by
        cases h : natToChars m with
        | nil => exact absurd h (natToChars_ne_nil m)
        | cons c cs => exact ⟨c, cs, rfl⟩
      have hcd : c.isDigit = true := by
        apply natToChars_all_digits m
        rw [hc]
        simp
      obtain ⟨hws, hq, hbr, hbrc, hn, ht, hf', hm, _, _, _, _⟩ := digit_not_special c hcd
      have hp : parseNumber (c :: (cs ++ rest)) = some (Int.ofNat m, rest) := by
        rw [← List.cons_append, ← hc]
        exact parseNumber_intToChars (Int.ofNat m) rest hrest
      rw [show intToChars (Int.ofNat m) = natToChars m from rfl, hc, List.cons_append]
      simp only [parseValueF]
      simp [skipWs, hws, hq, hbr, hbrc, hn, ht, hf', hp]
    | negSucc m =>
      have hp : parseNumber ('-' :: (natToChars (m + 1) ++ rest))
          = some (Int.negSucc m, rest) := by
        have h0 := parseNumber_intToChars (Int.negSucc m) rest hrest
        rw [show intToChars (Int.negSucc m) = '-' :: natToChars (m + 1) from rfl,
          List.cons_append] at h0
        exact h0
      rw [show intToChars (Int.negSucc m) = '-' :: natToChars (m + 1) from rfl,
        List.cons_append]
      simp only [parseValueF]
      simp [skipWs, isWsChar, hp]
  | str s =>
    rw [show stringifyChars (Json.str s) = '"' :: escapeJsonChars s.toList ++ ['"'] from by
      simp [stringifyChars]]
    rw [show ('"' :: escapeJsonChars s.toList ++ ['"']) ++ rest
        = '"' :: (escapeJsonChars s.toList ++ '"' :: rest) from by simp]
    simp only [parseValueF]
    simp [skipWs, isWsChar, parseStringBody_escape, string_mk_toList]
  | arr es =>
    cases es with
    | nil =>
      rw [show stringifyChars (Json.arr []) = ['[', ']'] from by simp [stringifyChars]]
      simp [parseValueF, skipWs, isWsChar]
    | cons e es' =>
      have hsj : stringifyChars (Json.arr (e :: es'))
          = '[' :: stringifyChars e ++ stringifyElems es' ++ [']'] := by
        simp [stringifyChars]
      rw [hsj] at hf ⊢
      obtain ⟨c, cs, hc, hws, hnb⟩ := stringifyChars_head_facts e
      rw [show ('[' :: stringifyChars e ++ stringifyElems es' ++ [']']) ++ rest
          = '[' :: (c :: (cs ++ (stringifyElems es' ++ ']' :: rest))) from by
        rw [hc]; simp]
      have hp : parseElemsF k (c :: (cs ++ (stringifyElems es' ++ ']' :: rest)))
          = some (e :: es', rest) := by
        have he := parseElemsF_stringify e es' rest k (by
          have h1 := stringifyChars_length_pos e
          simp [List.length_append] at hf ⊢
          omega)
        rw [hc] at he
        simpa [List.append_assoc] using he
      simp only [parseValueF]
      rw [skipWs_cons_not_ws '[' _ (by decide)]
      simp [skipWs, hws, hnb, hp]
  | obj fs =>
    cases fs with
    | nil =>
      rw [show stringifyChars (Json.obj []) = ['\x7b', '\x7d'] from by simp [stringifyChars]]
      simp [parseValueF, skipWs, isWsChar]
    | cons f fs' =>
      have hsj : stringifyChars (Json.obj (f :: fs'))
          = '\x7b' :: stringifyField f ++ stringifyFields fs' ++ ['\x7d'] := by
        simp [stringifyChars]
      rw [hsj] at hf ⊢
      rw [show ('\x7b' :: stringifyField f ++ stringifyFields fs' ++ ['\x7d']) ++ rest
          = '\x7b' :: ('"' :: (escapeJsonChars f.1.toList
              ++ '"' :: ':' :: (stringifyChars f.2
                ++ (stringifyFields fs' ++ '\x7d' :: rest)))) from by
        rw [stringifyField_eq f]; simp]
      have hp : parseFieldsF k ('"' :: (escapeJsonChars f.1.toList
              ++ '"' :: ':' :: (stringifyChars f.2 ++ (stringifyFields fs' ++ '\x7d' :: rest))))
          = some (f :: fs', rest) := by
        have he := parseFieldsF_stringify f fs' rest k (by
          have h1 := stringifyField_length_pos f
          simp [List.length_append] at hf ⊢
          omega)
        rw [stringifyField_eq f] at he
        simpa [List.append_assoc] using he
      simp only [parseValueF]
      simp only [String.toList] at hp
      simp [skipWs, isWsChar, hp]
termination_by sizeOf j
decreasing_by all_goals (subst_vars; simp_wf; omega)

theorem parseElemsF_stringify (e : Json) (es : List Json) (rest : List Char) (fuel : ℕ)
    (hf : (stringifyChars e ++ stringifyElems es).length + 2 ≤ fuel) :
    parseElemsF fuel (stringifyChars e ++ stringifyElems es ++ ']' :: rest)
      = some (e :: es, rest) := by
  obtain ⟨k, rfl⟩ : ∃ k, fuel = k + 1 := ⟨fuel - 1, by omega⟩
  have hv : parseValueF k (stringifyChars e ++ (stringifyElems es ++ ']' :: rest))
      = some (e, stringifyElems es ++ ']' :: rest) :=
    parseValueF_stringify e _ k
      (by simp [List.length_append] at hf ⊢; omega)
      (headNotDigit_elems es rest)
  simp only [parseElemsF]
  rw [List.append_assoc, hv]
  cases es with
  | nil =>
    rw [show stringifyElems ([] : List Json) = [] from by simp [stringifyElems]]
    simp [skipWs, isWsChar]
  | cons e2 es' =>
    have hse : stringifyElems (e2 :: es')
        = ',' :: stringifyChars e2 ++ stringifyElems es' := by
      simp [stringifyElems]
    rw [hse] at hf
    have hrec := parseElemsF_stringify e2 es' rest k (by
      have h1 := stringifyChars_length_pos e
      simp [List.length_append] at hf ⊢
      omega)
    rw [show stringifyElems (e2 :: es') ++ ']' :: rest
        = ',' :: (stringifyChars e2 ++ stringifyElems es' ++ ']' :: rest) from by
      rw [hse]; simp]
    simp only [List.append_assoc] at hrec
    simp [skipWs, isWsChar, hrec]
termination_by sizeOf e + sizeOf es + 1
decreasing_by all_goals (subst_vars; simp_wf; omega)

theorem parseFieldsF_stringify (f : String × Json) (fs : List (String × Json))
    (rest : List Char) (fuel : ℕ)
    (hf : (stringifyField f ++ stringifyFields fs).length + 2 ≤ fuel) :
    parseFieldsF fuel (stringifyField f ++ stringifyFields fs ++ '\x7d' :: rest)
      = some (f :: fs, rest) := by
  obtain ⟨k, rfl⟩ : ∃ k, fuel = k + 1 := ⟨fuel - 1, by omega⟩
  rw [stringifyField_eq f] at hf
  have hv : parseValueF k (stringifyChars f.2 ++ (stringifyFields fs ++ '\x7d' :: rest))
      = some (f.2, stringifyFields fs ++ '\x7d' :: rest) :=
    parseValueF_stringify f.2 _ k
      (by simp [List.length_append] at hf ⊢; omega)
      (headNotDigit_fields fs rest)
  rw [show stringifyField f ++ stringifyFields fs ++ '\x7d' :: rest
      = '"' :: (escapeJsonChars f.1.toList
          ++ '"' :: ':' :: (stringifyChars f.2 ++ (stringifyFields fs ++ '\x7d' :: rest))) from by
    rw [stringifyField_eq f]; simp]
  cases fs with
  | nil =>
    rw [show stringifyFields ([] : List (String × Json)) = [] from by simp [stringifyFields]]
        at hv ⊢
    simp only [List.nil_append] at hv ⊢
    simp only [parseFieldsF]
    simp [skipWs, isWsChar, parseStringBody_escape, hv, string_mk_toList, Prod.mk.eta]
  | cons f2 fs' =>
    have hsf2 : stringifyFields (f2 :: fs')
        = ',' :: stringifyField f2 ++ stringifyFields fs' := by
      simp [stringifyFields]
    rw [hsf2] at hf
    have hrec := parseFieldsF_stringify f2 fs' rest k (by
      simp [List.length_append] at hf ⊢
      omega)
    rw [hsf2] at hv ⊢
    simp only [List.cons_append, List.append_assoc] at hv hrec ⊢
    simp only [parseFieldsF]
    simp [skipWs, isWsChar, parseStringBody_escape, hv, hrec, string_mk_toList, Prod.mk.eta]
termination_by sizeOf f + sizeOf fs + 1
decreasing_by all_goals (subst_vars; (try obtain ⟨x1, x2⟩ := f); simp_wf; omega)

end

theorem parseJson_stringifyJson (j : Json) : parseJson (stringifyJson j) = some j := by
  have hts : (stringifyJson j).toList = stringifyChars j := rfl
  unfold parseJson
  rw [hts]
  have h := parseValueF_stringify j [] ((stringifyChars j).length + 1) (by omega) rfl
  rw [List.append_nil] at h
  rw [h]
  rfl

theorem transformAnthMessages_assistant_mem (ms : List ChatMessage) (m : ChatMessage)
    (hm : m ∈ ms) (hrole : m.role = "assistant") :
    ({ role := "assistant", content := AnthContent.blocks (assistantBlocks m) } : AnthMessage)
      ∈ transformAnthMessages ms := by
  induction ms with
  | nil => cases hm
  | cons x xs ih =>
    rw [List.mem_cons] at hm
    rcases hm with rfl | hm'
    · simp [transformAnthMessages, hrole]
    · have hmem := ih hm'
      unfold transformAnthMessages
      split_ifs <;> simp [hmem]

theorem assistantBlocks_toolUse_mem (m : ChatMessage) (tc : InferenceToolCall)
    (htc : tc ∈ m.tool_calls) :
    AnthBlock.toolUse tc.id tc.function.name (parseToolArguments tc.function.arguments)
      ∈ assistantBlocks m := by
  simp only [assistantBlocks]
  have hmem : AnthBlock.toolUse tc.id tc.function.name
        (parseToolArguments tc.function.arguments)
      ∈ (if m.content ≠ "" then [AnthBlock.text m.content] else [])
        ++ m.tool_calls.map (fun tc => AnthBlock.toolUse tc.id tc.function.name
            (parseToolArguments tc.function.arguments)) := by
    apply List.mem_append_right
    exact List.mem_map_of_mem _ htc
  have hne : ((if m.content ≠ "" then [AnthBlock.text m.content] else [])
      ++ m.tool_calls.map (fun tc => AnthBlock.toolUse tc.id tc.function.name
          (parseToolArguments tc.function.arguments))).isEmpty = false := by
    have := List.ne_nil_of_mem hmem
    cases h : ((if m.content ≠ "" then [AnthBlock.text m.content] else [])
        ++ m.tool_calls.map (fun tc => AnthBlock.toolUse tc.id tc.function.name
            (parseToolArguments tc.function.arguments))) with
    | nil => exact absurd h this
    | cons a l => rfl
  rw [hne]
  simp only [Bool.false_eq_true, if_false]
  exact hmem

theorem normalizeAnthropicToolCalls_mem (content : List AnthBlock) (i n : String)
    (input : Json) (hmem : AnthBlock.toolUse i n input ∈ content) :
    ∃ l, normalizeAnthropicToolCalls content = some l ∧
      mkNormalizedToolCall i n input ∈ l := by
  simp only [normalizeAnthropicToolCalls]
  have hf : AnthBlock.toolUse i n input ∈ content.filter isToolUseBlock :=
    List.mem_filter.mpr ⟨hmem, by simp [isToolUseBlock]⟩
  have hne : (content.filter isToolUseBlock).isEmpty = false := by
    have := List.ne_nil_of_mem hf
    cases h : content.filter isToolUseBlock with
    | nil => exact absurd h this
    | cons a l => rfl
  rw [hne]
  simp only [Bool.false_eq_true, if_false]
  refine ⟨_, rfl, ?_⟩
  exact List.mem_map.mpr ⟨_, hf, rfl⟩

/-- C7: translating a message list containing an assistant tool call (with
valid JSON-object arguments) and a following tool-result message to the
Anthropic shape produces a `tool_use` block carrying the parsed arguments, and
normalizing the corresponding Anthropic response preserves the tool name and
yields an arguments string that parses back to the original JSON object. -/
theorem c7_anthropic_round_trip (ms : List ChatMessage) (idx : ℕ)
    (m tmsg : ChatMessage) (tc : InferenceToolCall) (fields : List (String × Json))
    (hm : ms.get? idx = some m) (hrole : m.role = "assistant")
    (htc : tc ∈ m.tool_calls)
    (hargs : parseJson tc.function.arguments = some (Json.obj fields))
    (htm : ms.get? (idx + 1) = some tmsg) (htrole : tmsg.role = "tool")
    (htid : tmsg.tool_call_id = some tc.id) :
    ∃ amsg ∈ (transformMessagesForAnthropic ms).2, amsg.role = "assistant" ∧
      ∃ blocks, amsg.content = AnthContent.blocks blocks ∧
        AnthBlock.toolUse tc.id tc.function.name (Json.obj fields) ∈ blocks ∧
        ∃ l, normalizeAnthropicToolCalls blocks = some l ∧
          ∃ ntc ∈ l, ntc.function.name = tc.function.name ∧
            parseJson ntc.function.arguments = some (Json.obj fields) := by
  have hmm : m ∈ ms := List.get?_mem hm
  have h1 := transformAnthMessages_assistant_mem ms m hmm hrole
  have hparg : parseToolArguments tc.function.arguments = Json.obj fields := by
    unfold parseToolArguments
    rw [hargs]
  have hblock : AnthBlock.toolUse tc.id tc.function.name (Json.obj fields)
      ∈ assistantBlocks m := by
    have := assistantBlocks_toolUse_mem m tc htc
    rwa [hparg] at this
  obtain ⟨l, hl, hmeml⟩ := normalizeAnthropicToolCalls_mem (assistantBlocks m)
    tc.id tc.function.name (Json.obj fields) hblock
  refine ⟨_, h1, rfl, assistantBlocks m, rfl, hblock, l, hl, _, hmeml, rfl, ?_⟩
  simp only [mkNormalizedToolCall]
  rw [show anthToolInput (Json.obj fields) = Json.obj fields from by
    simp [anthToolInput, jsFalsy]]
  exact parseJson_stringifyJson (Json.obj fields)

/-- C7 witness: the round trip applied to a concrete two-message list whose
assistant tool call has arguments equal to the empty JSON object. -/
theorem c7_anthropic_round_trip_witness :
    ∃ amsg ∈ (transformMessagesForAnthropic c7Messages).2, amsg.role = "assistant" ∧
      ∃ blocks, amsg.content = AnthContent.blocks blocks ∧
        AnthBlock.toolUse tcFixture.id tcFixture.function.name (Json.obj []) ∈ blocks ∧
        ∃ l, normalizeAnthropicToolCalls blocks = some l ∧
          ∃ ntc ∈ l, ntc.function.name = tcFixture.function.name ∧
            parseJson ntc.function.arguments = some (Json.obj []) :=
  c7_anthropic_round_trip c7Messages 0 assistantMsgFixture toolMsgFixture tcFixture []
    rfl rfl (by simp [assistantMsgFixture]) rfl rfl rfl rfl

/-- C2 counterexample: a turn with zero tool-call results leaves the repetition
counter unchanged (here at 2), where the claim requires a reset to 0. -/
theorem c2_zero_calls_counterexample :
    updateRepetition "check_health" 2 [] = ("check_health", 2) ∧ (2 : ℕ) ≠ 0 :=
  ⟨rfl, by decide⟩

/-- C2 (amended): after each turn the repetition state updates as follows — a
turn with more than one tool-call result resets the counter to 0 and clears
the stored fingerprint; a turn with zero results leaves both unchanged; a turn
with exactly one result increments the counter when the result's fingerprint
equals the stored fingerprint, and otherwise resets it to 1, storing the new
fingerprint. -/
theorem c2_updateRepetition_characterization (lastToolName : String)
    (consecutiveSameTool : ℕ) (toolCalls : List ToolCallResult) :
    (toolCalls = [] → updateRepetition lastToolName consecutiveSameTool toolCalls
        = (lastToolName, consecutiveSameTool)) ∧
    (1 < toolCalls.length → updateRepetition lastToolName consecutiveSameTool toolCalls
        = ("", 0)) ∧
    (∀ r, toolCalls = [r] →
      (fingerprintOf r = lastToolName →
        updateRepetition lastToolName consecutiveSameTool toolCalls
          = (lastToolName, consecutiveSameTool + 1)) ∧
      (fingerprintOf r ≠ lastToolName →
        updateRepetition lastToolName consecutiveSameTool toolCalls
          = (fingerprintOf r, 1))) := by
  refine ⟨?_, ?_, ?_⟩
  · rintro rfl
    rfl
  · intro hlen
    cases toolCalls with
    | nil => simp at hlen
    | cons a t =>
      cases t with
      | nil => simp at hlen
      | cons b t2 => rfl
  · rintro r rfl
    constructor
    · intro hfp
      simp [updateRepetition, hfp]
    · intro hfp
      simp [updateRepetition, hfp]

/-- C2 witness: the characterization applied at a matching single result, a
non-matching single result, and an empty result list. -/
theorem c2_updateRepetition_characterization_witness :
    updateRepetition "t1" 1 [resFixture] = ("t1", 2) ∧
    updateRepetition "other" 1 [resFixture] = ("t1", 1) ∧
    updateRepetition "t1" 2 [] = ("t1", 2) :=
  ⟨((c2_updateRepetition_characterization "t1" 1 [resFixture]).2.2 resFixture rfl).1
      (by decide),
    ((c2_updateRepetition_characterization "other" 1 [resFixture]).2.2 resFixture rfl).2
      (by decide),
    (c2_updateRepetition_characterization "t1" 2 []).1 rfl⟩

theorem processToolCallsGo_take (oracle : ExecOracle) :
    ∀ (calls : List InferenceToolCall) (k : ℕ) (g : GuardState),
      processToolCallsGo oracle k g calls
        = processToolCallsGo oracle k g (calls.take (MAX_TOOL_CALLS_PER_TURN - k)) := by
  intro calls
  induction calls with
  | nil => intro k g; simp
  | cons tc rest ih =>
    intro k g
    by_cases hk : MAX_TOOL_CALLS_PER_TURN ≤ k
    · have h0 : MAX_TOOL_CALLS_PER_TURN - k = 0 := by omega
      rw [h0]
      simp [processToolCallsGo, hk]
    · have h1 : MAX_TOOL_CALLS_PER_TURN - k = (MAX_TOOL_CALLS_PER_TURN - (k + 1)) + 1 := by
        simp only [MAX_TOOL_CALLS_PER_TURN] at *
        omega
      rw [h1, List.take_succ_cons]
      simp only [processToolCallsGo, hk, if_false]
      split_ifs <;> rw [ih (k + 1)]

theorem processToolCallsGo_length (oracle : ExecOracle) :
    ∀ (calls : List InferenceToolCall) (k : ℕ) (g : GuardState),
      (processToolCallsGo oracle k g calls).2.1.length
        = min calls.length (MAX_TOOL_CALLS_PER_TURN - k) := by
  intro calls
  induction calls with
  | nil => intro k g; simp [processToolCallsGo]
  | cons tc rest ih =>
    intro k g
    by_cases hk : MAX_TOOL_CALLS_PER_TURN ≤ k
    · have h0 : MAX_TOOL_CALLS_PER_TURN - k = 0 := by omega
      simp [processToolCallsGo, hk, h0]
    · simp only [processToolCallsGo, hk, if_false]
      have hm : MAX_TOOL_CALLS_PER_TURN = 10 := rfl
      split_ifs <;>
        (simp [ih (k + 1), List.length_cons]
         simp only [hm] at *
         omega)

/-- C9: at most `MAX_TOOL_CALLS_PER_TURN` tool-call results are recorded per
turn, blocked results consume cap slots exactly like executed ones (the result
count is `min` of the request count and the cap), and the processing of a turn
— results, executed calls and final guard state alike — depends only on the
first `MAX_TOOL_CALLS_PER_TURN` requested calls, so later calls are never
examined or executed. -/
theorem c9_tool_call_cap (oracle : ExecOracle) (g : GuardState)
    (calls : List InferenceToolCall) :
    (processToolCalls oracle g calls).2.1.length ≤ MAX_TOOL_CALLS_PER_TURN ∧
    (processToolCalls oracle g calls).2.1.length
      = min calls.length MAX_TOOL_CALLS_PER_TURN ∧
    processToolCalls oracle g calls
      = processToolCalls oracle g (calls.take MAX_TOOL_CALLS_PER_TURN) := by
  have hlen := processToolCallsGo_length oracle calls 0 g
  have htake := processToolCallsGo_take oracle calls 0 g
  simp only [Nat.sub_zero] at hlen htake
  simp only [processToolCalls]
  refine ⟨?_, hlen, htake⟩
  rw [hlen]
  exact min_le_right _ _


theorem guardAfterExec_contains_other (g : GuardState) (name t : String)
    (ck : Option String) (h : ¬(name = t)) :
    (guardAfterExec g name ck).calledOnceTools.contains t
      = g.calledOnceTools.contains t := by
  have h' : ¬(t = name) := fun he => h he.symm
  unfold guardAfterExec
  cases ck <;> split_ifs <;> simp [h']

theorem guardAfterExec_contains_self (g : GuardState) (t : String) (ck : Option String)
    (ht : ONCE_PER_WAKE_TOOLS.contains t = true) :
    (guardAfterExec g t ck).calledOnceTools.contains t = true := by
  have ht' : t ∈ ONCE_PER_WAKE_TOOLS := by simpa using ht
  unfold guardAfterExec
  cases ck <;> simp [ht']

theorem processToolCallsGo_once_blocked (oracle : ExecOracle) (t : String)
    (ht : ONCE_PER_WAKE_TOOLS.contains t = true) :
    ∀ (calls : List InferenceToolCall) (k : ℕ) (g : GuardState),
      g.calledOnceTools.contains t = true →
      (processToolCallsGo oracle k g calls).1.calledOnceTools.contains t = true ∧
      (processToolCallsGo oracle k g calls).2.2.count t = 0 := by
  intro calls
  induction calls with
  | nil =>
    intro k g hg
    exact ⟨hg, by simp [processToolCallsGo]⟩
  | cons tc rest ih =>
    intro k g hg
    simp only [processToolCallsGo]
    by_cases hk : MAX_TOOL_CALLS_PER_TURN ≤ k
    · rw [if_pos hk]
      exact ⟨hg, by simp⟩
    · rw [if_neg hk]
      by_cases h1 : (ONCE_PER_WAKE_TOOLS.contains tc.function.name
          && g.calledOnceTools.contains tc.function.name) = true
      · rw [if_pos h1]
        exact ⟨(ih (k + 1) g hg).1, (ih (k + 1) g hg).2⟩
      · rw [if_neg h1]
        by_cases h2 : (match execCmdKey tc with
            | some ck => g.executedCommands.contains ck
            | none => false) = true
        · rw [if_pos h2]
          exact ⟨(ih (k + 1) g hg).1, (ih (k + 1) g hg).2⟩
        · rw [if_neg h2]
          have hnt : ¬(tc.function.name = t) := by
            intro he
            apply h1
            rw [he, ht, hg]
            rfl
          have hg2 : (guardAfterExec g tc.function.name
              (execCmdKey tc)).calledOnceTools.contains t = true := by
            rw [guardAfterExec_contains_other g tc.function.name t _ hnt]
            exact hg
          refine ⟨(ih (k + 1) _ hg2).1, ?_⟩
          have hrec := (ih (k + 1) _ hg2).2
          have hnt' : ¬(t = tc.function.name) := fun he => hnt he.symm
          show (tc.function.name :: (processToolCallsGo oracle (k + 1)
              (guardAfterExec g tc.function.name (execCmdKey tc)) rest).2.2).count t = 0
          rw [List.count_cons, hrec]
          simp [hnt, hnt']

theorem processToolCallsGo_once_atMost (oracle : ExecOracle) (t : String)
    (ht : ONCE_PER_WAKE_TOOLS.contains t = true) :
    ∀ (calls : List InferenceToolCall) (k : ℕ) (g : GuardState),
      ((processToolCallsGo oracle k g calls).2.2.count t
        + (if g.calledOnceTools.contains t = true then 1 else 0) ≤ 1) ∧
      ((processToolCallsGo oracle k g calls).2.2.count t = 0 →
        (processToolCallsGo oracle k g calls).1.calledOnceTools.contains t
          = g.calledOnceTools.contains t) ∧
      (0 < (processToolCallsGo oracle k g calls).2.2.count t →
        (processToolCallsGo oracle k g calls).1.calledOnceTools.contains t = true) := by
  intro calls
  induction calls with
  | nil =>
    intro k g
    refine ⟨?_, fun _ => rfl, fun h0 => absurd h0 (by simp [processToolCallsGo])⟩
    simp only [processToolCallsGo, List.count_nil]
    split_ifs <;> omega
  | cons tc rest ih =>
    intro k g
    simp only [processToolCallsGo]
    by_cases hk : MAX_TOOL_CALLS_PER_TURN ≤ k
    · rw [if_pos hk]
      refine ⟨?_, fun _ => rfl, fun h0 => absurd h0 (by simp)⟩
      simp only [List.count_nil]
      split_ifs <;> omega
    · rw [if_neg hk]
      by_cases h1 : (ONCE_PER_WAKE_TOOLS.contains tc.function.name
          && g.calledOnceTools.contains tc.function.name) = true
      · rw [if_pos h1]
        exact ih (k + 1) g
      · rw [if_neg h1]
        by_cases h2 : (match execCmdKey tc with
            | some ck => g.executedCommands.contains ck
            | none => false) = true
        · rw [if_pos h2]
          exact ih (k + 1) g
        · rw [if_neg h2]
          by_cases hnt : tc.function.name = t
          · have hgf : g.calledOnceTools.contains t = false := by
              cases h : g.calledOnceTools.contains t with
              | false => rfl
              | true => exact absurd (by rw [hnt, ht, h]; rfl) h1
            have hg2 : (guardAfterExec g tc.function.name
                (execCmdKey tc)).calledOnceTools.contains t = true := by
              rw [hnt]
              exact guardAfterExec_contains_self g t _ ht
            have hb := processToolCallsGo_once_blocked oracle t ht rest (k + 1) _ hg2
            have hcnt : (tc.function.name :: (processToolCallsGo oracle (k + 1)
                (guardAfterExec g tc.function.name (execCmdKey tc)) rest).2.2).count t
                = 1 := by
              rw [List.count_cons, hb.2]
              simp [hnt]
            refine ⟨?_, ?_, fun _ => hb.1⟩
            · show (tc.function.name :: (processToolCallsGo oracle (k + 1)
                  (guardAfterExec g tc.function.name (execCmdKey tc)) rest).2.2).count t
                  + (if g.calledOnceTools.contains t = true then 1 else 0) ≤ 1
              rw [hcnt, hgf]
              simp
            · intro h0
              rw [show ((tc.function.name :: (processToolCallsGo oracle (k + 1)
                  (guardAfterExec g tc.function.name (execCmdKey tc)) rest).2.2).count t)
                  = 1 from hcnt] at h0
              exact absurd h0 one_ne_zero
          · have hg2 : (guardAfterExec g tc.function.name
                (execCmdKey tc)).calledOnceTools.contains t
                = g.calledOnceTools.contains t :=
              guardAfterExec_contains_other g tc.function.name t _ hnt
            have hnt' : ¬(t = tc.function.name) := fun he => hnt he.symm
            have hcnt : (tc.function.name :: (processToolCallsGo oracle (k + 1)
                (guardAfterExec g tc.function.name (execCmdKey tc)) rest).2.2).count t
                = (processToolCallsGo oracle (k + 1)
                  (guardAfterExec g tc.function.name (execCmdKey tc)) rest).2.2.count t := by
              rw [List.count_cons]
              simp [hnt, hnt']
            refine ⟨?_, ?_, ?_⟩
            · show (tc.function.name :: (processToolCallsGo oracle (k + 1)
                  (guardAfterExec g tc.function.name (execCmdKey tc)) rest).2.2).count t
                  + (if g.calledOnceTools.contains t = true then 1 else 0) ≤ 1
              rw [hcnt, ← hg2]
              exact (ih (k + 1) _).1
            · intro h0
              rw [hcnt] at h0
              show ((processToolCallsGo oracle (k + 1)
                  (guardAfterExec g tc.function.name (execCmdKey tc)) rest).1).calledOnceTools.contains t
                  = g.calledOnceTools.contains t
              rw [(ih (k + 1) _).2.1 h0, hg2]
            · intro h0
              rw [hcnt] at h0
              exact (ih (k + 1) _).2.2 h0

theorem runGuardTurns_once (oracle : ExecOracle) (t : String)
    (ht : ONCE_PER_WAKE_TOOLS.contains t = true) :
    ∀ (turns : List (List InferenceToolCall)) (g : GuardState),
      (runGuardTurns oracle g turns).2.count t
        + (if g.calledOnceTools.contains t = true then 1 else 0) ≤ 1 := by
  intro turns
  induction turns with
  | nil =>
    intro g
    simp only [runGuardTurns, List.count_nil, Nat.zero_add]
    split_ifs <;> omega
  | cons calls rest ih =>
    intro g
    have hA := processToolCallsGo_once_atMost oracle t ht calls 0 g
    have hih := ih (processToolCallsGo oracle 0 g calls).1
    simp only [runGuardTurns, processToolCalls, List.count_append]
    by_cases h0 : (processToolCallsGo oracle 0 g calls).2.2.count t = 0
    · have hsame := hA.2.1 h0
      rw [hsame] at hih
      rw [h0]
      omega
    · have h1 : 0 < (processToolCallsGo oracle 0 g calls).2.2.count t :=
        Nat.pos_of_ne_zero h0
      have htrue := hA.2.2 h1
      rw [htrue] at hih
      simp at hih
      have hA1 := hA.1
      omega

theorem bootstrap_once_le (t : String) (ht : t ∈ ONCE_PER_WAKE_TOOLS) (flags : List Bool) :
    (bootstrapExecNames flags).count t
      ≤ (if (runBootstrap flags initialLoopState).guard.calledOnceTools.contains t = true
         then 1 else 0) := by
  fin_cases ht <;>
    rcases flags with _ | ⟨a, _ | ⟨b, _ | ⟨c, rest⟩⟩⟩ <;>
    (try cases a) <;> (try cases b) <;> (try cases c) <;>
    simp +decide [runBootstrap, bootstrapSteps, runBootstrapStep, bootstrapExecNames,
      initialLoopState, ONCE_PER_WAKE_TOOLS, List.zip_cons_cons, List.count_cons]

/-- C6 (corrected): during one wake, each once-per-wake tool executes at most
once across the bootstrap and every main-loop turn, and a repeated request that
the turn examines (within the 10-call cap) is answered with the synthetic
zero-duration blocked result, with no tool invocation and no guard change.
(The original claim's "every subsequent requested call" fails for calls dropped
by the per-turn cap; see the counterexample.) -/
theorem c6_once_per_wake (oracle : ExecOracle) (t : String)
    (ht : ONCE_PER_WAKE_TOOLS.contains t = true) (flags : List Bool)
    (turns : List (List InferenceToolCall)) (tc : InferenceToolCall) (g : GuardState)
    (hname : ONCE_PER_WAKE_TOOLS.contains tc.function.name = true)
    (hcalled : g.calledOnceTools.contains tc.function.name = true) :
    (bootstrapExecNames flags
        ++ (runGuardTurns oracle (runBootstrap flags initialLoopState).guard turns).2).count t
      ≤ 1 ∧
    processToolCalls oracle g [tc]
      = (g, [mkOnceBlockedResult tc (parsedArgs tc.function.arguments)], []) ∧
    (mkOnceBlockedResult tc (parsedArgs tc.function.arguments)).durationMs = 0 := by
  refine ⟨?_, ?_, rfl⟩
  · rw [List.count_append]
    have hb := bootstrap_once_le t (by simpa using ht) flags
    have hs := runGuardTurns_once oracle t ht turns
      (runBootstrap flags initialLoopState).guard
    omega
  · simp only [processToolCalls, processToolCallsGo]
    rw [if_neg (by decide : ¬(MAX_TOOL_CALLS_PER_TURN ≤ 0))]
    rw [if_pos (by rw [hname, hcalled]; rfl :
      (ONCE_PER_WAKE_TOOLS.contains tc.function.name
        && g.calledOnceTools.contains tc.function.name) = true)]

theorem c6_once_per_wake_witness :
    (bootstrapExecNames [true, true, true]
        ++ (runGuardTurns okOracle
          (runBootstrap [true, true, true] initialLoopState).guard []).2).count
        "check_economics" ≤ 1 ∧
    processToolCalls okOracle econDoneGuard [plainCall "c11" "check_economics"]
      = (econDoneGuard,
         [mkOnceBlockedResult (plainCall "c11" "check_economics")
           (parsedArgs (plainCall "c11" "check_economics").function.arguments)], []) ∧
    (mkOnceBlockedResult (plainCall "c11" "check_economics")
      (parsedArgs (plainCall "c11" "check_economics").function.arguments)).durationMs = 0 :=
  c6_once_per_wake okOracle "check_economics" (by decide) [true, true, true] []
    (plainCall "c11" "check_economics") econDoneGuard (by decide) (by decide)

/-- C6 counterexample to the original claim: with `check_economics` already
called this wake, a turn requesting ten fresh tools and then `check_economics`
as the eleventh call records exactly ten results and none for the repeat — the
call beyond the per-turn cap is dropped, not answered with a blocked result. -/
theorem c6_cap_counterexample :
    (processToolCalls okOracle econDoneGuard elevenCalls).2.1.length = 10 ∧
    ((processToolCalls okOracle econDoneGuard elevenCalls).2.1.all
      (fun r => !(r.id == "c11"))) = true := by
  exact ⟨rfl, rfl⟩

theorem loopIterTurn_advance (oracle : ExecOracle) (s : LoopState) (now : Int)
    (tier : SurvivalTier) (resp : RespInput) (res : ToolCallResult) (nm : String) (k : ℕ)
    (hsl : sleepUntilActive s.sleepUntil now = false)
    (htier : ¬ tier = SurvivalTier.dead)
    (hres : (processToolCalls oracle s.guard resp.toolCalls).2.1 = [res])
    (hrep : updateRepetition s.lastToolName s.consecutiveSameTool [res] = (nm, k))
    (hk : k < 3)
    (hsleep : sleepRequested [res] = false)
    (hcap : ¬ MAX_TURNS_PER_WAKE ≤ s.turnsThisWake + 1) :
    loopIterTurn oracle s now tier resp
      = (advanceState s tier (processToolCalls oracle s.guard resp.toolCalls).1 nm k,
         some [res]) := by
  have hne : resp.toolCalls.isEmpty = false := by
    cases hcal : resp.toolCalls with
    | nil =>
      rw [hcal] at hres
      exact absurd hres (by simp [processToolCalls, processToolCallsGo])
    | cons x xs => rfl
  have hstuck : ¬ (3 ≤ k) := by omega
  simp only [loopIterTurn]
  rw [if_neg (by simp [hsl]), if_neg htier]
  simp [hres, hrep, hsleep, hne, hstuck, hcap, advanceState]

theorem loopIterTurn_stuck (oracle : ExecOracle) (s : LoopState) (now : Int)
    (tier : SurvivalTier) (resp : RespInput) (res : ToolCallResult) (nm : String) (k : ℕ)
    (hsl : sleepUntilActive s.sleepUntil now = false)
    (htier : ¬ tier = SurvivalTier.dead)
    (hres : (processToolCalls oracle s.guard resp.toolCalls).2.1 = [res])
    (hrep : updateRepetition s.lastToolName s.consecutiveSameTool [res] = (nm, k))
    (hk : 3 ≤ k) :
    loopIterTurn oracle s now tier resp
      = (stuckHaltState s tier (processToolCalls oracle s.guard resp.toolCalls).1 nm k now,
         some [res]) := by
  simp only [loopIterTurn]
  rw [if_neg (by simp [hsl]), if_neg htier]
  simp [hres, hrep, hk, stuckHaltState]

/-- C4: when three consecutive main-loop turns each persist exactly one
tool-call result with a common fingerprint that differs from the fingerprint
last seen before the first of them, and none of the three turns is cut short
by the sleep-until guard, a dead tier, a sleep tool call or the turn cap, the
third turn halts the loop with `AgentState.sleeping` and a persisted dormancy
deadline of that turn's clock plus 600000 ms (10 minutes). -/
theorem c4_stuck_loop_halts (oracle : ExecOracle) (s0 S1 S2 : LoopState)
    (n1 n2 n3 : Int) (t1 t2 t3 : SurvivalTier) (r1 r2 r3 : RespInput)
    (a1 a2 a3 : ToolCallResult) (f : String)
    (hS1 : S1 = (loopIterTurn oracle s0 n1 t1 r1).1)
    (hS2 : S2 = (loopIterTurn oracle S1 n2 t2 r2).1)
    (h1a : sleepUntilActive s0.sleepUntil n1 = false)
    (h1b : ¬ t1 = SurvivalTier.dead)
    (h1c : (processToolCalls oracle s0.guard r1.toolCalls).2.1 = [a1])
    (h1d : fingerprintOf a1 = f)
    (hne : ¬ f = s0.lastToolName)
    (h1e : sleepRequested [a1] = false)
    (h1f : ¬ MAX_TURNS_PER_WAKE ≤ s0.turnsThisWake + 1)
    (h2a : sleepUntilActive S1.sleepUntil n2 = false)
    (h2b : ¬ t2 = SurvivalTier.dead)
    (h2c : (processToolCalls oracle S1.guard r2.toolCalls).2.1 = [a2])
    (h2d : fingerprintOf a2 = f)
    (h2e : sleepRequested [a2] = false)
    (h2f : ¬ MAX_TURNS_PER_WAKE ≤ S1.turnsThisWake + 1)
    (h3a : sleepUntilActive S2.sleepUntil n3 = false)
    (h3b : ¬ t3 = SurvivalTier.dead)
    (h3c : (processToolCalls oracle S2.guard r3.toolCalls).2.1 = [a3])
    (h3d : fingerprintOf a3 = f) :
    (loopIterTurn oracle S2 n3 t3 r3).1.running = false ∧
    (loopIterTurn oracle S2 n3 t3 r3).1.agentState = AgentState.sleeping ∧
    (loopIterTurn oracle S2 n3 t3 r3).1.sleepUntil = some (n3 + 600000) ∧
    (loopIterTurn oracle S2 n3 t3 r3).2 = some [a3] := by
  have hrep1 : updateRepetition s0.lastToolName s0.consecutiveSameTool [a1] = (f, 1) := by
    simp [updateRepetition, h1d, hne]
  have e1 := loopIterTurn_advance oracle s0 n1 t1 r1 a1 f 1
    h1a h1b h1c hrep1 (by omega) h1e h1f
  have hS1R : S1 = advanceState s0 t1 (processToolCalls oracle s0.guard r1.toolCalls).1 f 1 := by
    rw [hS1, e1]
  have hrep2 : updateRepetition S1.lastToolName S1.consecutiveSameTool [a2] = (f, 2) := by
    rw [hS1R]
    simp [updateRepetition, advanceState, h2d]
  have e2 := loopIterTurn_advance oracle S1 n2 t2 r2 a2 f 2
    h2a h2b h2c hrep2 (by omega) h2e h2f
  have hS2R : S2 = advanceState S1 t2 (processToolCalls oracle S1.guard r2.toolCalls).1 f 2 := by
    rw [hS2, e2]
  have hrep3 : updateRepetition S2.lastToolName S2.consecutiveSameTool [a3] = (f, 3) := by
    rw [hS2R]
    simp [updateRepetition, advanceState, h3d]
  have e3 := loopIterTurn_stuck oracle S2 n3 t3 r3 a3 f 3 h3a h3b h3c hrep3 (by omega)
  rw [e3]
  exact ⟨rfl, rfl, rfl, rfl⟩

theorem c4_stuck_loop_halts_witness :
    (loopIterTurn okOracle (loopIterTurn okOracle (loopIterTurn okOracle initialLoopState
        0 SurvivalTier.normal respT1).1 1 SurvivalTier.normal respT1).1
        2 SurvivalTier.normal respT1).1.running = false ∧
    (loopIterTurn okOracle (loopIterTurn okOracle (loopIterTurn okOracle initialLoopState
        0 SurvivalTier.normal respT1).1 1 SurvivalTier.normal respT1).1
        2 SurvivalTier.normal respT1).1.agentState = AgentState.sleeping ∧
    (loopIterTurn okOracle (loopIterTurn okOracle (loopIterTurn okOracle initialLoopState
        0 SurvivalTier.normal respT1).1 1 SurvivalTier.normal respT1).1
        2 SurvivalTier.normal respT1).1.sleepUntil = some (2 + 600000) ∧
    (loopIterTurn okOracle (loopIterTurn okOracle (loopIterTurn okOracle initialLoopState
        0 SurvivalTier.normal respT1).1 1 SurvivalTier.normal respT1).1
        2 SurvivalTier.normal respT1).2 = some [resFixture] :=
  c4_stuck_loop_halts okOracle initialLoopState _ _ 0 1 2
    SurvivalTier.normal SurvivalTier.normal SurvivalTier.normal respT1 respT1 respT1
    resFixture resFixture resFixture "t1" rfl rfl rfl (by decide) rfl rfl (by decide)
    rfl (by decide) rfl (by decide) rfl rfl rfl (by decide) rfl (by decide) rfl rfl

/-- C8: an exception during a main-loop iteration increments the
consecutive-error counter (leaving the rest of the state unchanged while the
counter stays below `MAX_CONSECUTIVE_ERRORS`); when the incremented counter
reaches 5 the loop halts with `AgentState.sleeping` and a persisted dormancy
deadline of now + 300000 ms (5 minutes); and an iteration that completes its
turn without halting resets the counter to 0. -/
theorem c8_error_counter (oracle : ExecOracle) (s1 s2 s : LoopState)
    (n1 n2 now : Int) (tier : SurvivalTier) (resp : RespInput)
    (res : ToolCallResult) (nm : String) (k : ℕ)
    (hlow : ¬ MAX_CONSECUTIVE_ERRORS ≤ s1.consecutiveErrors + 1)
    (hhigh : MAX_CONSECUTIVE_ERRORS ≤ s2.consecutiveErrors + 1)
    (hsl : sleepUntilActive s.sleepUntil now = false)
    (htier : ¬ tier = SurvivalTier.dead)
    (hres : (processToolCalls oracle s.guard resp.toolCalls).2.1 = [res])
    (hrep : updateRepetition s.lastToolName s.consecutiveSameTool [res] = (nm, k))
    (hk : k < 3)
    (hsleep : sleepRequested [res] = false)
    (hcap : ¬ MAX_TURNS_PER_WAKE ≤ s.turnsThisWake + 1) :
    loopIter oracle s1 (IterInput.exception n1)
      = ({ s1 with consecutiveErrors := s1.consecutiveErrors + 1 }, none) ∧
    loopIter oracle s2 (IterInput.exception n2) = (errorHaltState s2 n2, none) ∧
    (errorHaltState s2 n2).running = false ∧
    (errorHaltState s2 n2).agentState = AgentState.sleeping ∧
    (errorHaltState s2 n2).sleepUntil = some (n2 + 300000) ∧
    (errorHaltState s2 n2).consecutiveErrors = s2.consecutiveErrors + 1 ∧
    (loopIterTurn oracle s now tier resp).1.consecutiveErrors = 0 := by
  refine ⟨?_, ?_, rfl, rfl, rfl, rfl, ?_⟩
  · simp only [loopIter]
    rw [if_neg hlow]
  · simp only [loopIter]
    rw [if_pos hhigh]
    rfl
  · have e := loopIterTurn_advance oracle s now tier resp res nm k
      hsl htier hres hrep hk hsleep hcap
    rw [e]
    rfl

theorem c8_error_counter_witness :
    loopIter okOracle initialLoopState (IterInput.exception 0)
      = ({ initialLoopState with
           consecutiveErrors := initialLoopState.consecutiveErrors + 1 }, none) ∧
    loopIter okOracle errFourState (IterInput.exception 5) = (errorHaltState errFourState 5, none) ∧
    (errorHaltState errFourState 5).running = false ∧
    (errorHaltState errFourState 5).agentState = AgentState.sleeping ∧
    (errorHaltState errFourState 5).sleepUntil = some (5 + 300000) ∧
    (errorHaltState errFourState 5).consecutiveErrors = errFourState.consecutiveErrors + 1 ∧
    (loopIterTurn okOracle initialLoopState 0 SurvivalTier.normal respT1).1.consecutiveErrors
      = 0 :=
  c8_error_counter okOracle initialLoopState errFourState initialLoopState 0 5 0
    SurvivalTier.normal respT1 resFixture "t1" 1 (by decide) (by decide) rfl (by decide)
    rfl rfl (by decide) rfl (by decide)

theorem countTurns_notRunning (oracle : ExecOracle) (s : LoopState)
    (inputs : List IterInput) (h : s.running = false) :
    countTurns oracle s inputs = 0 := by
  cases inputs with
  | nil => rfl
  | cons inp rest => simp [countTurns, h]

theorem countTurns_step_halt (oracle : ExecOracle) (rest : List IterInput)
    (p : LoopState × Option (List ToolCallResult)) (h : p.1.running = false) :
    (if p.2.isSome then 1 else 0) + countTurns oracle p.1 rest ≤ 1 := by
  rw [countTurns_notRunning oracle p.1 rest h]
  split_ifs <;> omega

theorem loopIterTurn_turns (oracle : ExecOracle) (s : LoopState) (now : Int)
    (tier : SurvivalTier) (resp : RespInput) :
    ((loopIterTurn oracle s now tier resp).2 = none →
      (loopIterTurn oracle s now tier resp).1.turnsThisWake = s.turnsThisWake) ∧
    ((loopIterTurn oracle s now tier resp).2 ≠ none →
      (loopIterTurn oracle s now tier resp).1.turnsThisWake = s.turnsThisWake + 1) ∧
    ((loopIterTurn oracle s now tier resp).1.running = true →
      (loopIterTurn oracle s now tier resp).2 = none ∨
        (loopIterTurn oracle s now tier resp).1.turnsThisWake < MAX_TURNS_PER_WAKE) := by
  simp only [loopIterTurn]
  split_ifs with h1 h2 h3 h4 h5 h6 <;> simp_all <;> omega

theorem countTurns_bound (oracle : ExecOracle) :
    ∀ (inputs : List IterInput) (s : LoopState),
      s.turnsThisWake < MAX_TURNS_PER_WAKE →
      countTurns oracle s inputs ≤ MAX_TURNS_PER_WAKE - s.turnsThisWake := by
  intro inputs
  induction inputs with
  | nil =>
    intro s _
    simp [countTurns]
  | cons inp rest ih =>
    intro s hlt
    by_cases hrun : s.running = true
    · simp only [countTurns]
      rw [if_pos hrun]
      cases inp with
      | exception now =>
        simp only [loopIter]
        by_cases hm : MAX_CONSECUTIVE_ERRORS ≤ s.consecutiveErrors + 1
        · rw [if_pos hm]
          exact le_trans (countTurns_step_halt oracle rest _ rfl) (by omega)
        · rw [if_neg hm]
          have hih := ih { s with consecutiveErrors := s.consecutiveErrors + 1 } hlt
          simpa using hih
      | turn now tier resp =>
        simp only [loopIter]
        have hT := loopIterTurn_turns oracle s now tier resp
        by_cases h2 : (loopIterTurn oracle s now tier resp).2 = none
        · have hturn := hT.1 h2
          by_cases hr : (loopIterTurn oracle s now tier resp).1.running = true
          · have hih := ih (loopIterTurn oracle s now tier resp).1 (by rw [hturn]; exact hlt)
            rw [hturn] at hih
            simp only [h2, Option.isSome_none]
            simpa using hih
          · have hr' : (loopIterTurn oracle s now tier resp).1.running = false := by
              simpa using hr
            rw [countTurns_notRunning oracle _ rest hr']
            simp [h2]
        · have hturn := hT.2.1 h2
          by_cases hr : (loopIterTurn oracle s now tier resp).1.running = true
          · rcases hT.2.2 hr with hnone | hlt'
            · exact absurd hnone h2
            · have hih := ih (loopIterTurn oracle s now tier resp).1 hlt'
              rw [hturn] at hih hlt'
              have hsome : (loopIterTurn oracle s now tier resp).2.isSome = true :=
                Option.ne_none_iff_isSome.mp h2
              rw [if_pos hsome]
              omega
          · have hr' : (loopIterTurn oracle s now tier resp).1.running = false := by
              simpa using hr
            rw [countTurns_notRunning oracle _ rest hr']
            split_ifs <;> omega
    · have hr0 : s.running = false := by simpa using hrun
      rw [countTurns_notRunning oracle s (inp :: rest) hr0]
      exact Nat.zero_le _

/-- C10: the three synthetic bootstrap steps, when they all complete, raise the
per-wake turn counter that the 20-turn cap tests to 3, so a wake session that
starts with a completed bootstrap can run at most 17 further persisted
main-loop turns before the cap forces sleep. -/
theorem c10_bootstrap_turn_budget (oracle : ExecOracle) (inputs : List IterInput) :
    (runBootstrap [true, true, true] initialLoopState).turnsThisWake = 3 ∧
    countTurns oracle (runBootstrap [true, true, true] initialLoopState) inputs ≤ 17 := by
  refine ⟨rfl, ?_⟩
  have h := countTurns_bound oracle inputs
    (runBootstrap [true, true, true] initialLoopState) (by decide)
  have h3 : (runBootstrap [true, true, true] initialLoopState).turnsThisWake = 3 := rfl
  rw [h3] at h
  simpa [MAX_TURNS_PER_WAKE] using h
